import Mathlib

/-!
Verification development for the HTTP resource-acquisition core of the
zombie headless-browser library.  The JavaScript sources are shallowly
embedded: the fetch value types (`Headers`, `Body`, `Request`, `Response`),
the resource pipeline (`Resources`) and the async-request engine
(`XMLHttpRequest`) become pure Lean functions over explicit state.
External collaborators (zlib, iconv, the wire transport, the filesystem,
JSON parsing, base64) are passed in as explicit function parameters, since
their internals are outside the repository.
-/

set_option maxRecDepth 10000

/-! ## Shared helpers -/

/-- Single left-to-right pass removing each non-overlapping occurrence of the
two-character sequence CR LF, as JavaScript's `value.replace(/\r\n/g, '')`
does.  Note this removes only the pair: a lone CR or a lone LF survives,
and removal is not iterated (removing the pair from `"\r\r\n\n"` leaves
`"\r\n"`). -/
def stripCRLFAux : List Char → List Char
  | [] => []
  | '\r' :: '\n' :: rest => stripCRLFAux rest
  | c :: rest => c :: stripCRLFAux rest

/-- String form of `stripCRLFAux`. -/
def stripCRLF (s : String) : String := ⟨stripCRLFAux s.data⟩

/-- JavaScript's `toLowerCase()`, modelled as per-character lowercasing
(header names and methods in this codebase are ASCII). Implemented over
the character list so that it evaluates inside the kernel. -/
def jsToLower (s : String) : String := ⟨s.data.map Char.toLower⟩

/-- JavaScript's `toUpperCase()`, same modelling as `jsToLower`. -/
def jsToUpper (s : String) : String := ⟨s.data.map Char.toUpper⟩

/-- Character membership in a string (kernel-evaluable form of
`String.contains`). -/
def containsChar (s : String) (c : Char) : Bool := s.data.contains c

/-! ## Header collection

Embeds the `Headers` class of the fetch module (`src/unnamed/part_000`,
lines 22-105).  The `_headers` array of `[name, value]` pairs becomes a
`List (String × String)`. -/

/-- Match of one stored header entry against an already-lowercased name,
the comparison `header[0] === caseInsensitive` of the source. -/
def hmatch (lowered : String) (p : String × String) : Bool := p.1 == lowered

/-- `Headers.append`: lowercases the name, strips CR LF pairs from the value
(`String(value).replace(/\r\n/g, '')`), and pushes the pair at the end. -/
def Headers.append (h : List (String × String)) (name value : String) :
    List (String × String) :=
  h ++ [(jsToLower name, stripCRLF value)]

/-- `Headers.delete`: keeps the entries whose stored name differs from the
lowercased argument. -/
def Headers.delete (h : List (String × String)) (name : String) :
    List (String × String) :=
  h.filter (fun p => !(hmatch (jsToLower name) p))

/-- `Headers.get`: value of the first entry matching the lowercased name,
`null` (here `none`) when there is no match. -/
def Headers.get (h : List (String × String)) (name : String) : Option String :=
  (h.find? (hmatch (jsToLower name))).map Prod.snd

/-- `Headers.getAll`: values of all entries matching the lowercased name, in
stored order. -/
def Headers.getAll (h : List (String × String)) (name : String) : List String :=
  (h.filter (hmatch (jsToLower name))).map Prod.snd

/-- `Headers.has`: whether some entry matches the lowercased name. -/
def Headers.has (h : List (String × String)) (name : String) : Bool :=
  (h.find? (hmatch (jsToLower name))).isSome

/-- The `reduce` loop of `Headers.set`: entries with a different name are
kept; the first entry with the matching name is replaced by the cast value;
further matching entries are dropped.  The boolean argument is the
`replaced` flag. -/
def Headers.setFold (lowered cast : String) :
    List (String × String) → Bool → List (String × String)
  | [], _ => []
  | p :: rest, replaced =>
    if p.1 = lowered then
      if replaced then Headers.setFold lowered cast rest true
      else (p.1, cast) :: Headers.setFold lowered cast rest true
    else p :: Headers.setFold lowered cast rest replaced

/-- `Headers.set`: runs the `reduce` loop, then, when no entry matched
(`replaced` stayed false, equivalently no stored name equals the lowercased
argument), appends the pair as `this.append(name, value)` does.  When no
entry matches the fold returns the list unchanged, so appending to the fold
result is the source's `this.append` on the reassigned `_headers`. -/
def Headers.set (h : List (String × String)) (name value : String) :
    List (String × String) :=
  let lowered := jsToLower name
  let cast := stripCRLF value
  if h.any (hmatch lowered) then Headers.setFold lowered cast h false
  else Headers.setFold lowered cast h false ++ [(lowered, cast)]

/-- `new Headers(init)` for an array/iterable `init`: appends every pair in
order (the constructor's `for` loop, which also covers the
`init instanceof Headers` branch). -/
def Headers.ofPairs (l : List (String × String)) : List (String × String) :=
  l.foldl (fun acc p => Headers.append acc p.1 p.2) []

/-- One mutating operation on a header collection, used to state invariants
over arbitrary operation sequences. -/
inductive HOp
  | doAppend (name value : String)
  | doSet (name value : String)
  | doDelete (name : String)
deriving DecidableEq, Repr

/-- Interpret one header operation. -/
def applyHOp (h : List (String × String)) : HOp → List (String × String)
  | .doAppend n v => Headers.append h n v
  | .doSet n v => Headers.set h n v
  | .doDelete n => Headers.delete h n

/-- Interpret a sequence of header operations from left to right. -/
def applyHOps (h : List (String × String)) (ops : List HOp) :
    List (String × String) :=
  ops.foldl applyHOp h

/-- Append the same name with each of the given values in turn (the
"N appends of one name" scenario). -/
def appendMany (h : List (String × String)) (name : String) (vs : List String) :
    List (String × String) :=
  vs.foldl (fun acc v => Headers.append acc name v) h

/-! ### Header lemmas -/

theorem find?_append_or (p : α → Bool) (l1 l2 : List α) :
    (l1 ++ l2).find? p = ((l1.find? p).orElse (fun _ => l2.find? p)) := by
  induction l1 with
  | nil => simp [Option.orElse]
  | cons a l ih =>
    cases hpa : p a with
    | true => simp [List.find?_cons, hpa, Option.orElse]
    | false => simp [List.find?_cons, hpa, ih, Option.orElse]

theorem setFold_true (lowered cast : String) (h : List (String × String)) :
    Headers.setFold lowered cast h true
      = h.filter (fun p => !(hmatch lowered p)) := by
  induction h with
  | nil => rfl
  | cons p rest ih =>
    by_cases hp : p.1 = lowered
    · have hb : hmatch lowered p = true := by simp [hmatch, hp]
      simp [Headers.setFold, hp, ih, List.filter_cons, hb]
    · have hb : hmatch lowered p = false := by simp [hmatch, hp]
      simp [Headers.setFold, hp, ih, List.filter_cons, hb]

theorem setFold_char (lowered cast : String) (h : List (String × String))
    (hm : h.any (hmatch lowered) = true) :
    Headers.setFold lowered cast h false
      = h.takeWhile (fun p => !(hmatch lowered p))
        ++ (lowered, cast)
          :: ((h.dropWhile (fun p => !(hmatch lowered p))).tail.filter
                (fun p => !(hmatch lowered p))) := by
  induction h with
  | nil => simp at hm
  | cons p rest ih =>
    by_cases hp : p.1 = lowered
    · have hb : hmatch lowered p = true := by simp [hmatch, hp]
      rw [show Headers.setFold lowered cast (p :: rest) false
          = (p.1, cast) :: Headers.setFold lowered cast rest true from by
        simp [Headers.setFold, hp]]
      rw [setFold_true, List.takeWhile_cons, List.dropWhile_cons]
      simp [hb, hp]
    · have hb : hmatch lowered p = false := by simp [hmatch, hp]
      have hrest : rest.any (hmatch lowered) = true := by
        rcases List.any_eq_true.mp hm with ⟨x, hx, hpx⟩
        rcases List.mem_cons.mp hx with h1 | h1
        · rw [h1] at hpx; simp [hb] at hpx
        · exact List.any_eq_true.mpr ⟨x, h1, hpx⟩
      rw [show Headers.setFold lowered cast (p :: rest) false
          = p :: Headers.setFold lowered cast rest false from by
        simp [Headers.setFold, hp]]
      rw [ih hrest, List.takeWhile_cons, List.dropWhile_cons]
      simp [hb]

theorem countP_zero_of_false (p : α → Bool) (l : List α)
    (h : ∀ a ∈ l, p a = false) : l.countP p = 0 := by
  induction l with
  | nil => rfl
  | cons a rest ih =>
    have ha := h a (List.mem_cons_self a rest)
    rw [List.countP_cons, ih (fun b hb => h b (List.mem_cons_of_mem a hb))]
    simp [ha]

theorem appendMany_eq (h : List (String × String)) (name : String)
    (vs : List String) :
    appendMany h name vs
      = h ++ vs.map (fun v => (jsToLower name, stripCRLF v)) := by
  induction vs generalizing h with
  | nil => simp [appendMany]
  | cons v rest ih =>
    show appendMany (Headers.append h name v) name rest = _
    rw [ih]
    simp [Headers.append]

theorem mem_setFold (lowered cast : String) (h : List (String × String)) :
    ∀ (b : Bool) (p : String × String),
      p ∈ Headers.setFold lowered cast h b → p ∈ h ∨ p.2 = cast := by
  induction h with
  | nil => intro b p hp; simp [Headers.setFold] at hp
  | cons q rest ih =>
    intro b p hp
    by_cases hq : q.1 = lowered
    · cases b with
      | true =>
        rw [show Headers.setFold lowered cast (q :: rest) true
            = Headers.setFold lowered cast rest true from by
          simp [Headers.setFold, hq]] at hp
        rcases ih true p hp with h1 | h1
        · exact Or.inl (List.mem_cons_of_mem q h1)
        · exact Or.inr h1
      | false =>
        rw [show Headers.setFold lowered cast (q :: rest) false
            = (q.1, cast) :: Headers.setFold lowered cast rest true from by
          simp [Headers.setFold, hq]] at hp
        rcases List.mem_cons.mp hp with h1 | h1
        · exact Or.inr (by rw [h1])
        · rcases ih true p h1 with h2 | h2
          · exact Or.inl (List.mem_cons_of_mem q h2)
          · exact Or.inr h2
    · rw [show Headers.setFold lowered cast (q :: rest) b
          = q :: Headers.setFold lowered cast rest b from by
        simp [Headers.setFold, hq]] at hp
      rcases List.mem_cons.mp hp with h1 | h1
      · exact Or.inl (by rw [h1]; exact List.mem_cons_self q rest)
      · rcases ih b p h1 with h2 | h2
        · exact Or.inl (List.mem_cons_of_mem q h2)
        · exact Or.inr h2

theorem mem_set (h : List (String × String)) (name value : String)
    (p : String × String) (hp : p ∈ Headers.set h name value) :
    p ∈ h ∨ p.2 = stripCRLF value := by
  simp only [Headers.set] at hp
  by_cases hm : h.any (hmatch (jsToLower name)) = true
  · simp only [hm, if_true] at hp
    exact mem_setFold _ _ _ _ _ hp
  · have hm' : h.any (hmatch (jsToLower name)) = false := by
      simpa using hm
    simp only [hm', Bool.false_eq_true, if_false, List.mem_append,
      List.mem_singleton] at hp
    rcases hp with h1 | h1
    · exact mem_setFold _ _ _ _ _ h1
    · exact Or.inr (by rw [h1])

theorem mem_append_op (h : List (String × String)) (name value : String)
    (p : String × String) (hp : p ∈ Headers.append h name value) :
    p ∈ h ∨ p.2 = stripCRLF value := by
  unfold Headers.append at hp
  rcases List.mem_append.mp hp with h1 | h1
  · exact Or.inl h1
  · exact Or.inr (by rw [List.mem_singleton.mp h1])

theorem mem_delete_op (h : List (String × String)) (name : String)
    (p : String × String) (hp : p ∈ Headers.delete h name) : p ∈ h :=
  (List.mem_filter.mp hp).1

theorem applyHOps_values (ops : List HOp) :
    ∀ (h : List (String × String)) (p : String × String),
      p ∈ applyHOps h ops →
      p ∈ h ∨ ∃ n v, (HOp.doAppend n v ∈ ops ∨ HOp.doSet n v ∈ ops)
        ∧ p.2 = stripCRLF v := by
  induction ops with
  | nil => intro h p hp; exact Or.inl hp
  | cons op rest ih =>
    intro h p hp
    have hstep : applyHOps h (op :: rest) = applyHOps (applyHOp h op) rest :=
      rfl
    rw [hstep] at hp
    rcases ih (applyHOp h op) p hp with h1 | h1
    · cases op with
      | doAppend n v =>
        rcases mem_append_op h n v p h1 with h2 | h2
        · exact Or.inl h2
        · exact Or.inr ⟨n, v, Or.inl (List.mem_cons_self _ _), h2⟩
      | doSet n v =>
        rcases mem_set h n v p h1 with h2 | h2
        · exact Or.inl h2
        · exact Or.inr ⟨n, v, Or.inr (List.mem_cons_self _ _), h2⟩
      | doDelete n => exact Or.inl (mem_delete_op h n p h1)
    · rcases h1 with ⟨n, v, hop, hv⟩
      rcases hop with hop | hop
      · exact Or.inr ⟨n, v, Or.inl (List.mem_cons_of_mem _ hop), hv⟩
      · exact Or.inr ⟨n, v, Or.inr (List.mem_cons_of_mem _ hop), hv⟩

theorem set_char (h : List (String × String)) (name w : String)
    (hm : h.any (hmatch (jsToLower name)) = true) :
    Headers.set h name w
      = h.takeWhile (fun p => !(hmatch (jsToLower name) p))
        ++ (jsToLower name, stripCRLF w)
          :: ((h.dropWhile (fun p => !(hmatch (jsToLower name) p))).tail.filter
                (fun p => !(hmatch (jsToLower name) p))) := by
  simp only [Headers.set, hm, if_true]
  exact setFold_char _ _ _ hm

theorem set_countP (h : List (String × String)) (name w : String)
    (hm : h.any (hmatch (jsToLower name)) = true) :
    (Headers.set h name w).countP (hmatch (jsToLower name)) = 1 := by
  rw [set_char h name w hm, List.countP_append, List.countP_cons]
  have h1 : (h.takeWhile (fun p => !(hmatch (jsToLower name) p))).countP
      (hmatch (jsToLower name)) = 0 :=
    countP_zero_of_false _ _ (fun a ha => by
      have := List.mem_takeWhile_imp ha
      simpa using this)
  have h2 : (((h.dropWhile (fun p => !(hmatch (jsToLower name) p))).tail.filter
      (fun p => !(hmatch (jsToLower name) p)))).countP (hmatch (jsToLower name)) = 0 :=
    countP_zero_of_false _ _ (fun a ha => by
      have := (List.mem_filter.mp ha).2
      simpa using this)
  rw [h1, h2]
  simp [hmatch]

theorem appendMany_any (h : List (String × String)) (name : String)
    (vs : List String) (hvs : vs ≠ []) :
    (appendMany h name vs).any (hmatch (jsToLower name)) = true := by
  rw [appendMany_eq]
  cases vs with
  | nil => cases hvs rfl
  | cons v rest =>
    refine List.any_eq_true.mpr ⟨(jsToLower name, stripCRLF v), ?_, ?_⟩
    · exact List.mem_append_right _ (by simp)
    · simp [hmatch]

/-- C5: header lookup and mutation are case-insensitive — for two names
with the same lowercasing, `get`/`getAll`/`has`/`delete`/`set` coincide;
`get` after an `append` under any casing returns the previous first match
if any, else the freshly appended (CRLF-stripped) value, and `none` is the
not-found sentinel built into `Headers.get`; after at least one `append`
of a name, a single `set` of that name leaves exactly one entry for it,
sitting at the position of the first former match (everything before the
first match is unchanged, later matches are dropped). -/
theorem claim_C5
    (h : List (String × String)) (n1 n2 v w name : String) (vs : List String)
    (hc : jsToLower n1 = jsToLower n2) (hvs : vs ≠ []) :
    (Headers.get h n1 = Headers.get h n2
      ∧ Headers.getAll h n1 = Headers.getAll h n2
      ∧ Headers.has h n1 = Headers.has h n2
      ∧ Headers.delete h n1 = Headers.delete h n2
      ∧ Headers.set h n1 w = Headers.set h n2 w)
    ∧ Headers.get (Headers.append h n1 v) n2
        = some ((Headers.get h n2).getD (stripCRLF v))
    ∧ (Headers.set (appendMany h name vs) name w).countP
        (hmatch (jsToLower name)) = 1
    ∧ Headers.set (appendMany h name vs) name w
      = (appendMany h name vs).takeWhile (fun p => !(hmatch (jsToLower name) p))
        ++ (jsToLower name, stripCRLF w)
          :: (((appendMany h name vs).dropWhile
                (fun p => !(hmatch (jsToLower name) p))).tail.filter
                (fun p => !(hmatch (jsToLower name) p))) := by
  refine ⟨⟨?_, ?_, ?_, ?_, ?_⟩, ?_, ?_, ?_⟩
  · simp only [Headers.get, hc]
  · simp only [Headers.getAll, hc]
  · simp only [Headers.has, hc]
  · simp only [Headers.delete, hc]
  · simp only [Headers.set, hc]
  · simp only [Headers.get, Headers.append, hc]
    rw [find?_append_or]
    cases hf : h.find? (hmatch (jsToLower n2)) with
    | some q => simp [Option.orElse]
    | none => simp [Option.orElse, List.find?, hmatch]
  · exact set_countP _ _ _ (appendMany_any h name vs hvs)
  · exact set_char _ _ _ (appendMany_any h name vs hvs)

theorem claim_C5_witness :
    (Headers.set (appendMany [] "X" ["a", "b"]) "X" "z").countP
      (hmatch (jsToLower "X")) = 1 :=
  (claim_C5 [] "X-Foo" "x-foo" "2" "z" "X" ["a", "b"] (by decide)
    (by decide)).2.2.1

/-- C6 (counterexample): the claim asserts that no stored value contains a
CR or LF character, but `append` (and `set`) only removes the
two-character sequence CR LF — a lone CR survives: appending the value
`"a\rb"` stores it unchanged, CR included. -/
theorem claim_C6_counterexample :
    (applyHOps [] [HOp.doAppend "x" "a\rb"]).map Prod.snd = ["a\rb"]
    ∧ containsChar "a\rb" '\r' = true := by decide

/-- C6 (amended): after any sequence of header operations starting from
the empty collection, every stored value is the result of `stripCRLF` on
the value supplied by some `append` or `set` in the sequence — that is,
`append` and `set` remove each (leftmost, non-overlapping) CR LF pair from
the value before storing it; lone CR or LF characters are preserved.  The
second conjunct shows one CR LF pair being removed. -/
theorem claim_C6 (ops : List HOp) (p : String × String)
    (hp : p ∈ applyHOps [] ops) :
    (∃ n v, (HOp.doAppend n v ∈ ops ∨ HOp.doSet n v ∈ ops)
      ∧ p.2 = stripCRLF v)
    ∧ stripCRLF "a\r\nb" = "ab" := by
  constructor
  · rcases applyHOps_values ops [] p hp with h1 | h1
    · simp at h1
    · exact h1
  · rfl

theorem claim_C6_witness :
    (∃ n v, (HOp.doAppend n v ∈ [HOp.doAppend "n" "v"]
        ∨ HOp.doSet n v ∈ [HOp.doAppend "n" "v"])
      ∧ ("n", "v").2 = stripCRLF v)
    ∧ stripCRLF "a\r\nb" = "ab" :=
  claim_C6 [HOp.doAppend "n" "v"] ("n", "v") (by decide)

/-! ## Message body and fetch value objects

Embeds the `Body`, `Request` and `Response` classes of the fetch module
(`src/unnamed/part_000`, lines 185-408).  Byte buffers are `List Nat`;
streams carry their remaining bytes plus the `readable` flag.  Reference
sharing of a stream between a body and a copy of it is modelled by copying
the stream's current state, which coincides with the JavaScript heap for
the sequential programs considered here.  zlib, UTF-8 decoding and
`JSON.parse` are external to the repository and appear as explicit
function parameters. -/

/-- Byte buffers (JavaScript `Buffer`). -/
abbrev JSBytes := List Nat

/-- Model of the bytes of a JavaScript string (sufficient for the ASCII
data exercised here). -/
def strBytes (s : String) : JSBytes := s.data.map Char.toNat

/-- A readable stream: its remaining bytes and whether it is still
readable (a fully drained stream no longer is). -/
structure BStream where
  data : JSBytes
  readable : Bool
deriving DecidableEq, Repr

/-- JavaScript error values thrown/rejected by the fetch module. -/
inductive JSErr
  | typeError (msg : String)
  | rangeError (msg : String)
  | syntaxError (msg : String)
  | genericError (msg : String)
  | domError (code : Nat) (msg : String)
deriving DecidableEq, Repr

/-- The reuse errors of the fetch module: `Body._consume` on a used body,
and the constructor/clone guards of `Request`/`Response`. -/
def isReuseError : JSErr → Bool
  | .typeError "Body already consumed" => true
  | .typeError "Request body already used" => true
  | .typeError "This Request body has already been used" => true
  | .typeError "This Response body has already been used" => true
  | _ => false

/-- External operations used by body consumption: zlib inflate/gunzip,
`Buffer.toString` and `JSON.parse` (its result abstracted to a string
rendering). -/
structure BodyExt where
  inflate : JSBytes → JSBytes
  gunzip : JSBytes → JSBytes
  toStr : JSBytes → String
  jsonParse : String → Except String String

/-- The `Body` object state: the wrapped stream (absent for a body-less
request), the `_bodyUsed` flag, and the headers the body methods read
(owned by the enclosing `Request`/`Response`). -/
structure FBody where
  stream : Option BStream
  bodyUsed : Bool
  headers : List (String × String)
deriving DecidableEq, Repr

/-- `decompressStream` (lines 10-18): picks inflate/gunzip according to the
`Transfer-Encoding` / `Content-Encoding` headers, applied here to the
drained bytes. -/
def decompressData (ext : BodyExt) (headers : List (String × String))
    (data : JSBytes) : JSBytes :=
  let te := Headers.get headers "Transfer-Encoding"
  let ce := Headers.get headers "Content-Encoding"
  if ce = some "deflate" ∨ te = some "deflate" then ext.inflate data
  else if ce = some "gzip" ∨ te = some "gzip" then ext.gunzip data
  else data

/-- `Body._setContentType`: sets `Content-Type` on the headers when a
non-empty content type is supplied and none is present yet. -/
def setContentType (headers : List (String × String)) (ct : Option String) :
    List (String × String) :=
  match ct with
  | some c =>
    if c ≠ "" && !(Headers.has headers "Content-Type") then
      Headers.set headers "Content-Type" c
    else headers
  | none => headers

/-- The supported `bodyInit` variants of the `Body` constructor.  The
boundary of the multipart branch (random in the source) is supplied
explicitly.  A `bodyInit` of any other truthy shape throws
`This body type not yet supported` and is not represented. -/
inductive BodyInit
  | fromBody (b : FBody)
  | fromStream (s : BStream)
  | fromString (s : String)
  | fromForm (entries : List (String × String)) (boundary : String)
  | noBody

/-- One multipart text part as produced by `FormData._asStream` (string
values only; the `value.read` file branch is unused by the claims and by
`FormData.append`, which does not support files yet). -/
def formPartText (boundary name value : String) : String :=
  "--" ++ boundary ++ "\r\n"
    ++ "Content-Disposition: form-data; name=\"" ++ name ++ "\"\r\n"
    ++ "Content-Type: text/plain; charset=utf8\r\n\r\n"
    ++ "Content-Length: " ++ toString value.length ++ "\r\n\r\n"
    ++ value ++ "\r\n"

/-- The full multipart stream contents produced by `FormData._asStream`. -/
def formStreamBytes (entries : List (String × String)) (boundary : String) :
    JSBytes :=
  strBytes ((entries.foldl (fun acc p =>
    acc ++ formPartText boundary p.1 p.2) "") ++ "--" ++ boundary ++ "--")

/-- The `Body` constructor (lines 187-215): a `Body` copy shares the
stream and inherits the source's content type; a string becomes a
single-chunk stream with content type `text/plain;charset=UTF-8`; an
external stream is wrapped as-is; non-empty form data becomes a multipart
stream with a generated boundary; empty form data only sets the text
content type.  `_bodyUsed` always starts `false` and `this.body` starts
`null`. -/
def mkBody (headers : List (String × String)) : BodyInit → FBody
  | .fromBody b =>
    { stream := b.stream, bodyUsed := false
      headers := setContentType headers (Headers.get b.headers "Content-Type") }
  | .fromStream s => { stream := some s, bodyUsed := false, headers := headers }
  | .fromString s =>
    { stream := some { data := strBytes s, readable := true }, bodyUsed := false
      headers := setContentType headers (some "text/plain;charset=UTF-8") }
  | .fromForm entries boundary =>
    if entries.length ≠ 0 then
      { stream := some { data := formStreamBytes entries boundary
                         readable := true }
        bodyUsed := false
        headers := setContentType headers
          (some ("multipart/form-data;boundary=" ++ boundary)) }
    else
      { stream := none, bodyUsed := false
        headers := setContentType headers (some "text/plain;charset=UTF-8") }
  | .noBody => { stream := none, bodyUsed := false, headers := headers }

/-- `Body._consume` (lines 270-298): a used body rejects with the reuse
error; otherwise the used flag is set, a missing stream yields `null`, a
no-longer-readable stream yields an empty buffer, and a readable stream is
drained through `decompressStream` (a mid-read stream error also resolves
with the bytes accumulated, so erroring is observationally draining
early). -/
def FBody.consume (ext : BodyExt) (b : FBody) :
    Except JSErr (Option JSBytes) × FBody :=
  if b.bodyUsed then (.error (.typeError "Body already consumed"), b)
  else
    let b1 := { b with bodyUsed := true }
    match b1.stream with
    | none => (.ok none, b1)
    | some s =>
      if s.readable then
        (.ok (some (decompressData ext b1.headers s.data)),
         { b1 with stream := some { data := [], readable := false } })
      else (.ok (some []), b1)

/-- `Body.arrayBuffer`: consume, then view the buffer (consuming `null`
throws reading `length` of `null`). -/
def FBody.arrayBuffer (ext : BodyExt) (b : FBody) :
    Except JSErr JSBytes × FBody :=
  match FBody.consume ext b with
  | (.error e, b1) => (.error e, b1)
  | (.ok none, b1) => (.error (.typeError "Cannot read length of null"), b1)
  | (.ok (some bs), b1) => (.ok bs, b1)

/-- `Body.text`: consume, then `buffer.toString()`. -/
def FBody.text (ext : BodyExt) (b : FBody) : Except JSErr String × FBody :=
  match FBody.consume ext b with
  | (.error e, b1) => (.error e, b1)
  | (.ok none, b1) => (.error (.typeError "Cannot read toString of null"), b1)
  | (.ok (some bs), b1) => (.ok (ext.toStr bs), b1)

/-- `Body.json`: consume, decode, `JSON.parse` (a parse failure is the
JavaScript `SyntaxError`). -/
def FBody.json (ext : BodyExt) (b : FBody) : Except JSErr String × FBody :=
  match FBody.consume ext b with
  | (.error e, b1) => (.error e, b1)
  | (.ok none, b1) => (.error (.typeError "Cannot read toString of null"), b1)
  | (.ok (some bs), b1) =>
    match ext.jsonParse (ext.toStr bs) with
    | .ok v => (.ok v, b1)
    | .error m => (.error (.syntaxError m), b1)

/-- Kernel-evaluable split of a list at the first occurrence of a
separator: first segment, plus the remainder after the separator when the
separator occurs. -/
def dropPre? : List Char → List Char → Option (List Char)
  | [], l => some l
  | _ :: _, [] => none
  | s :: ss, c :: cs => if c = s then dropPre? ss cs else none

/-- One step of separator search: the segment before the first occurrence
of `sep` and the remainder after it, if any. -/
def splitSeg (sep : List Char) : List Char → (List Char × Option (List Char))
  | [] => ([], none)
  | c :: cs =>
    match dropPre? sep (c :: cs) with
    | some rest => ([], some rest)
    | none =>
      let r := splitSeg sep cs
      (c :: r.1, r.2)

/-- Kernel-evaluable form of splitting a string on every occurrence of a
(non-empty) separator, with fuel bounded by the string length. -/
def splitAllAux (sep : List Char) : Nat → List Char → List (List Char)
  | 0, l => [l]
  | Nat.succ fuel, l =>
    match splitSeg sep l with
    | (seg, none) => [seg]
    | (seg, some rest) => seg :: splitAllAux sep fuel rest

/-- String splitting on a separator (JavaScript `split`, no limit). -/
def jsSplit (s sep : String) : List String :=
  if sep.data = [] then [s]
  else (splitAllAux sep.data s.data.length s.data).map (fun l => ⟨l⟩)

/-- First segment before the separator and remainder after it, if the
separator occurs. -/
def splitFirst (sep s : String) : Option (String × String) :=
  if sep.data = [] then none
  else
    match splitSeg sep.data s.data with
    | (_, none) => none
    | (seg, some rest) => some (⟨seg⟩, ⟨rest⟩)

/-- First `;`-separated segment of a content type, the
`contentType.split(';')[0]` of the source. -/
def firstSeg (s : String) : String := ((jsSplit s ";").headD "")

/-- `Body.formData` (lines 238-253): consumes first (so the used flag is
set even on failure), then fails for every content type — the two form
types with `Not implemented yet`, anything else with the `TypeError`
naming the MIME type. -/
def FBody.formData (ext : BodyExt) (b : FBody) : Except JSErr Unit × FBody :=
  match FBody.consume ext b with
  | (.error e, b1) => (.error e, b1)
  | (.ok _, b1) =>
    let contentType := (Headers.get b1.headers "Content-Type").getD ""
    let mimeType := firstSeg contentType
    if mimeType = "multipart/form-data" then
      (.error (.genericError "Not implemented yet"), b1)
    else if mimeType = "application/x-www-form-urlencoded" then
      (.error (.genericError "Not implemented yet"), b1)
    else
      (.error (.typeError ("formData does not support MIME type " ++ mimeType)),
       b1)

/-- The four single-use asynchronous accessors of `Body`. -/
inductive BAcc
  | bufferA
  | textA
  | jsonA
  | formA
deriving DecidableEq, Repr

/-- Run an accessor, erasing its value (only the error outcome and the
body state matter for the reuse discipline). -/
def runAcc (ext : BodyExt) : BAcc → FBody → Except JSErr Unit × FBody
  | .bufferA, b =>
    let r := FBody.arrayBuffer ext b
    (r.1.map (fun _ => ()), r.2)
  | .textA, b =>
    let r := FBody.text ext b
    (r.1.map (fun _ => ()), r.2)
  | .jsonA, b =>
    let r := FBody.json ext b
    (r.1.map (fun _ => ()), r.2)
  | .formA, b =>
    let r := FBody.formData ext b
    (r.1, r.2)

/-- Subset of node's `http.STATUS_CODES` table (an external collaborator),
covering the codes exercised by this development. -/
def statusCodes : Nat → Option String
  | 200 => some "OK"
  | 201 => some "Created"
  | 204 => some "No Content"
  | 301 => some "Moved Permanently"
  | 302 => some "Found"
  | 303 => some "See Other"
  | 304 => some "Not Modified"
  | 307 => some "Temporary Redirect"
  | 308 => some "Permanent Redirect"
  | 400 => some "Bad Request"
  | 401 => some "Unauthorized"
  | 403 => some "Forbidden"
  | 404 => some "Not Found"
  | 405 => some "Method Not Allowed"
  | 500 => some "Internal Server Error"
  | 502 => some "Bad Gateway"
  | 503 => some "Service Unavailable"
  | _ => none

/-- The fetch `Request` object: URL, uppercased method, redirect mode and
counter, and the `Body` part (whose `headers` field is the request's
header collection). -/
structure FRequest where
  url : String
  method : String
  redirect : String
  redirectCount : Nat
  body : FBody
deriving DecidableEq, Repr

/-- The `input` argument of the `Request` constructor. -/
inductive ReqInput
  | fromString (s : String)
  | fromRequest (r : FRequest)

/-- The `init` options of the `Request` constructor (string bodies, the
supported subset). -/
structure ReqInit where
  method : Option String := none
  headers : Option (List (String × String)) := none
  body : Option String := none
  redirect : Option String := none

/-- First stage of the `Request` constructor (lines 309-314): a `Request`
input that owns a stream hands its body over — rejecting with the reuse
error if that body is already used, otherwise marking the input's body
used.  Returns the transferred `bodyInit` and the updated input. -/
def requestBodyInit (input : ReqInput) :
    Except JSErr (Option BodyInit × Option FRequest) :=
  match input with
  | .fromRequest r =>
    if r.body.stream ≠ none then
      if r.body.bodyUsed then .error (.typeError "Request body already used")
      else .ok (some (.fromBody r.body),
                some { r with body := { r.body with bodyUsed := true } })
    else .ok (none, none)
  | .fromString _ => .ok (none, none)

/-- The `Request` constructor (lines 306-339).  Returns the new request
and, when the input was a `Request`, the input with its body marked used.
An empty URL is the falsy `this.url` that raises the input-type error; an
`init.body` present for GET/HEAD raises; the redirect mode defaults to
`follow` and only `error` survives normalization. -/
def mkRequest (input : ReqInput) (init : Option ReqInit) :
    Except JSErr (FRequest × Option FRequest) :=
  match requestBodyInit input with
  | .error e => .error e
  | .ok (bodyInit0, updatedInput) =>
    let url := match input with
      | .fromString s => s
      | .fromRequest r => r.url
    if url = "" then
      .error (.typeError "Input must be string or another Request")
    else
      let method := jsToUpper (match init with
        | some i => match i.method with
          | some m => if m = "" then "GET" else m
          | none => "GET"
        | none => match input with
          | .fromRequest r => r.method
          | .fromString _ => "GET")
      let headers := match init with
        | some i => Headers.ofPairs (i.headers.getD [])
        | none => match input with
          | .fromRequest r => Headers.ofPairs r.body.headers
          | .fromString _ => []
      let initBody := match init with
        | some i => match i.body with
          | some bs => if bs = "" then none else some bs
          | none => none
        | none => none
      let rd := match init with
        | some i => i.redirect
        | none => none
      let redirectMode := if rd = some "error" then "error" else "follow"
      match initBody with
      | some bs =>
        if method = "GET" ∨ method = "HEAD" then
          .error (.typeError "Cannot include body with GET/HEAD request")
        else
          .ok ({ url := url, method := method, redirect := redirectMode,
                 redirectCount := 0,
                 body := mkBody headers (.fromString bs) }, updatedInput)
      | none =>
        .ok ({ url := url, method := method, redirect := redirectMode,
               redirectCount := 0,
               body := mkBody headers (bodyInit0.getD .noBody) }, updatedInput)

/-- `Request.clone` (lines 343-347): a used body raises the reuse error,
an unused one hits the unimplemented guard. -/
def FRequest.cloneR (r : FRequest) : Except JSErr Unit :=
  if r.body.bodyUsed then
    .error (.typeError "This Request body has already been used")
  else .error (.genericError "Not implemented yet")

/-- The `init` options of the `Response` constructor. -/
structure RespInit where
  url : Option String := none
  status : Nat
  statusText : Option String := none
  headers : Option (List (String × String)) := none

/-- The fetch `Response` object. -/
structure FResponse where
  rtype : String
  status : Nat
  statusText : String
  urlRaw : String
  body : FBody
deriving DecidableEq, Repr

/-- The `^[^\n\r]+$` check on status text: non-empty and free of CR/LF. -/
def validStatusText (st : String) : Bool :=
  !st.data.isEmpty && st.data.all (fun c => c ≠ '\r' && c ≠ '\n')

/-- The `Response` constructor (lines 358-379): with `responseInit`, the
status must lie in [200,599] and the (defaulted) status text must be valid;
without it, the error-sentinel form has status 0, empty status text,
empty headers and type `error`. -/
def mkResponse (binit : BodyInit) (rinit : Option RespInit) :
    Except JSErr FResponse :=
  match rinit with
  | some ri =>
    if ri.status < 200 ∨ ri.status > 599 then
      .error (.rangeError ("Status code " ++ toString ri.status
        ++ " not in range"))
    else
      let statusText := match ri.statusText with
        | some st => if st = "" then (statusCodes ri.status).getD "Unknown"
                     else st
        | none => (statusCodes ri.status).getD "Unknown"
      if validStatusText statusText then
        .ok { rtype := "default", status := ri.status, statusText := statusText,
              urlRaw := ri.url.getD "",
              body := mkBody (Headers.ofPairs (ri.headers.getD [])) binit }
      else .error (.typeError "Status text not valid format")
  | none =>
    .ok { rtype := "error", status := 0, statusText := "", urlRaw := "",
          body := mkBody [] binit }

/-- `Response.url` getter: the recorded URL without its fragment. -/
def FResponse.url (r : FResponse) : String := (jsSplit r.urlRaw "#").headD ""

/-- `Response.ok` getter. -/
def FResponse.isOk (r : FResponse) : Bool :=
  200 ≤ r.status && r.status ≤ 299

/-- `Response.clone` (lines 389-393), same shape as `Request.clone`. -/
def FResponse.cloneR (r : FResponse) : Except JSErr Unit :=
  if r.body.bodyUsed then
    .error (.typeError "This Response body has already been used")
  else .error (.genericError "Not implemented yet")

/-! ### Body lemmas and claims C4, C10 -/

theorem consume_used (ext : BodyExt) (b : FBody) (hb : b.bodyUsed = true) :
    FBody.consume ext b = (.error (.typeError "Body already consumed"), b) := by
  simp [FBody.consume, hb]

theorem runAcc_used (ext : BodyExt) (a : BAcc) (b : FBody)
    (hb : b.bodyUsed = true) :
    runAcc ext a b = (.error (.typeError "Body already consumed"), b) := by
  cases a <;>
    simp [runAcc, FBody.arrayBuffer, FBody.text, FBody.json, FBody.formData,
      consume_used ext b hb, Except.map]

theorem consume_unused (ext : BodyExt) (b : FBody) (hb : b.bodyUsed = false) :
    ∃ ob b1, FBody.consume ext b = (.ok ob, b1)
      ∧ b1.bodyUsed = true ∧ b1.headers = b.headers := by
  unfold FBody.consume
  rw [hb]
  simp only [Bool.false_eq_true, if_false]
  cases hs : b.stream with
  | none =>
    refine ⟨none, { b with bodyUsed := true }, ?_, rfl, rfl⟩
    simp [hs]
  | some s =>
    cases hr : s.readable with
    | true =>
      refine ⟨some (decompressData ext b.headers s.data),
        { b with bodyUsed := true, stream := some (BStream.mk [] false) },
        ?_, rfl, rfl⟩
      simp [hs, hr]
    | false =>
      refine ⟨some [], { b with bodyUsed := true }, ?_, rfl, rfl⟩
      simp [hs, hr]

theorem runAcc_state (ext : BodyExt) (a : BAcc) (b : FBody) :
    (runAcc ext a b).2 = (FBody.consume ext b).2 := by
  cases a with
  | bufferA =>
    show (FBody.arrayBuffer ext b).2 = _
    unfold FBody.arrayBuffer
    cases hc : FBody.consume ext b with
    | mk r b1 =>
      rcases r with e | ob
      · simp
      · cases ob <;> simp
  | textA =>
    show (FBody.text ext b).2 = _
    unfold FBody.text
    cases hc : FBody.consume ext b with
    | mk r b1 =>
      rcases r with e | ob
      · simp
      · cases ob <;> simp
  | jsonA =>
    show (FBody.json ext b).2 = _
    unfold FBody.json
    cases hc : FBody.consume ext b with
    | mk r b1 =>
      rcases r with e | ob
      · simp
      · cases ob with
        | none => simp
        | some bs =>
          rcases hj : ext.jsonParse (ext.toStr bs) with m | v <;> simp [hj]
  | formA =>
    show (FBody.formData ext b).2 = _
    unfold FBody.formData
    cases hc : FBody.consume ext b with
    | mk r b1 =>
      rcases r with e | ob
      · simp
      · by_cases h1 : firstSeg ((Headers.get b1.headers "Content-Type").getD "")
            = "multipart/form-data"
        · simp [h1]
        · by_cases h2 : firstSeg ((Headers.get b1.headers
              "Content-Type").getD "") = "application/x-www-form-urlencoded"
          · simp [h1, h2]
          · simp [h1, h2]

theorem consume_marks (ext : BodyExt) (b : FBody) (hb : b.bodyUsed = false) :
    (FBody.consume ext b).2.bodyUsed = true := by
  obtain ⟨ob, b1, hc, hu, _⟩ := consume_unused ext b hb
  rw [hc]
  exact hu

/-- Concrete instantiation of the external body operations: identity
codecs, codepoint string decoding, identity JSON rendering. -/
def ext0 : BodyExt :=
  { inflate := id, gunzip := id
    toStr := fun bs => ⟨bs.map Char.ofNat⟩
    jsonParse := fun s => .ok s }

/-- A body built from the string `"hi"`, then consumed once via `text`. -/
def c4Body0 : FBody := mkBody [] (.fromString "hi")

/-- The used body after the first `text` call. -/
def c4Used : FBody := (FBody.text ext0 c4Body0).2

/-- A `Response` constructed as a copy of the used body (the
`bodyInit instanceof Body` branch of the `Body` constructor). -/
def c4Resp : Except JSErr FResponse :=
  mkResponse (.fromBody c4Used) (some { status := 200 })

/-- The copy's body (falls back to an empty body if construction failed,
which the counterexample theorem rules out). -/
def c4CopyBody : FBody :=
  match c4Resp with
  | .ok r => r.body
  | .error _ => mkBody [] .noBody

/-- C4 (counterexample): the claim asserts that an accessor on a copy of a
used body fails with the reuse error, but the `Body` constructor's copy
branch resets `_bodyUsed` to `false`, so `text` on a `Response` built as a
copy of a used body succeeds (the shared stream is drained, so it returns
the empty string rather than any error). -/
theorem claim_C4_counterexample :
    c4Used.bodyUsed = true
    ∧ c4Resp.toOption.isSome = true
    ∧ c4CopyBody.bodyUsed = false
    ∧ (FBody.text ext0 c4CopyBody).1 = Except.ok "" :=
  ⟨rfl, rfl, rfl, rfl⟩

/-- C4 (amended): the first call to any accessor on an unused body marks
it used; every subsequent accessor call on the *same* body fails with the
`Body already consumed` reuse error and leaves the body unchanged;
constructing a `Request` copy of a `Request` whose body stream exists and
is already used fails with the `Request body already used` reuse error at
construction time.  (A `Body`/`Response` constructed as a copy, however,
starts with a fresh used flag — see the counterexample.) -/
theorem claim_C4 (ext : BodyExt) (a a' : BAcc) (b b2 : FBody) (r : FRequest)
    (hb : b.bodyUsed = false) (hb2 : b2.bodyUsed = true)
    (hrs : r.body.stream ≠ none) (hru : r.body.bodyUsed = true) :
    (runAcc ext a b).2.bodyUsed = true
    ∧ (runAcc ext a' b2).1
        = Except.error (.typeError "Body already consumed")
    ∧ (runAcc ext a' b2).2 = b2
    ∧ isReuseError (.typeError "Body already consumed") = true
    ∧ mkRequest (.fromRequest r) none
        = Except.error (.typeError "Request body already used")
    ∧ isReuseError (.typeError "Request body already used") = true := by
  refine ⟨?_, ?_, ?_, rfl, ?_, rfl⟩
  · rw [runAcc_state]
    exact consume_marks ext b hb
  · rw [runAcc_used ext a' b2 hb2]
  · rw [runAcc_used ext a' b2 hb2]
  · have h1 : requestBodyInit (.fromRequest r)
        = .error (.typeError "Request body already used") := by
      simp only [requestBodyInit]
      rw [if_pos hrs, if_pos hru]
    unfold mkRequest
    rw [h1]

/-- A request whose body stream exists and has been consumed. -/
def c4ReqUsed : FRequest :=
  { url := "http://example.test/", method := "POST", redirect := "follow",
    redirectCount := 0,
    body := { stream := some (BStream.mk [] false), bodyUsed := true,
              headers := [] } }

theorem claim_C4_witness :
    (runAcc ext0 .textA (mkBody [] (.fromString "x"))).2.bodyUsed = true
    ∧ (runAcc ext0 .jsonA c4Used).1
        = Except.error (.typeError "Body already consumed")
    ∧ mkRequest (.fromRequest c4ReqUsed) none
        = Except.error (.typeError "Request body already used") := by
  have h := claim_C4 ext0 .textA .jsonA (mkBody [] (.fromString "x")) c4Used
    c4ReqUsed (by decide) (by decide) (by decide) (by decide)
  exact ⟨h.1, h.2.1, h.2.2.2.2.1⟩

/-- C10: on a body whose content type is neither `multipart/form-data`
nor `application/x-www-form-urlencoded`, the first `formData()` call
consumes the body first and then fails with the `TypeError` naming the
MIME type — so the body is left marked used, and any subsequent accessor
call on it fails with the reuse error. -/
theorem claim_C10 (ext : BodyExt) (b : FBody) (a : BAcc)
    (hb : b.bodyUsed = false)
    (hm1 : firstSeg ((Headers.get b.headers "Content-Type").getD "")
      ≠ "multipart/form-data")
    (hm2 : firstSeg ((Headers.get b.headers "Content-Type").getD "")
      ≠ "application/x-www-form-urlencoded") :
    (FBody.formData ext b).1
      = Except.error (.typeError ("formData does not support MIME type "
          ++ firstSeg ((Headers.get b.headers "Content-Type").getD "")))
    ∧ (FBody.formData ext b).2.bodyUsed = true
    ∧ (runAcc ext a (FBody.formData ext b).2).1
        = Except.error (.typeError "Body already consumed") := by
  obtain ⟨ob, b1, hc, hu, hh⟩ := consume_unused ext b hb
  have hm1' : firstSeg ((Headers.get b1.headers "Content-Type").getD "")
      ≠ "multipart/form-data" := by rw [hh]; exact hm1
  have hm2' : firstSeg ((Headers.get b1.headers "Content-Type").getD "")
      ≠ "application/x-www-form-urlencoded" := by rw [hh]; exact hm2
  have hfd : FBody.formData ext b
      = (.error (.typeError ("formData does not support MIME type "
          ++ firstSeg ((Headers.get b1.headers "Content-Type").getD ""))),
         b1) := by
    unfold FBody.formData
    rw [hc]
    simp only [if_neg hm1', if_neg hm2']
  rw [hfd, hh]
  exact ⟨rfl, hu, by rw [runAcc_used ext a b1 hu]⟩

/-- An unused JSON body (content type `application/json`). -/
def c10Body : FBody :=
  { stream := some (BStream.mk (strBytes "[1]") true), bodyUsed := false,
    headers := [("content-type", "application/json")] }

theorem claim_C10_witness :
    (FBody.formData ext0 c10Body).1
      = Except.error (.typeError
          "formData does not support MIME type application/json")
    ∧ (FBody.formData ext0 c10Body).2.bodyUsed = true
    ∧ (runAcc ext0 .textA (FBody.formData ext0 c10Body).2).1
        = Except.error (.typeError "Body already consumed") := by
  have h := claim_C10 ext0 c10Body .textA (by decide) (by decide) (by decide)
  exact ⟨by rw [h.1]; rfl, h.2.1, h.2.2⟩

/-! ## URL helpers

`URL.parse`, `Utils.resolveHref` and querystring handling are node/jsdom
library functions, external to this repository; they are modelled here
on the URL shapes the pipeline exercises
(`scheme://host[:port]/path[?query][#hash]` plus relative references). -/

/-- Whether `pre` is a prefix of `s`. -/
def startsWithStr (pre s : String) : Bool := (dropPre? pre.data s.data).isSome

/-- The components `URL.parse` provides that the pipeline reads. -/
structure URLParts where
  protocol : Option String := none
  hostname : Option String := none
  port : Option String := none
  pathname : Option String := none
  search : Option String := none
deriving DecidableEq, Repr

/-- Modelled from the spec: node's `URL.parse` (external), restricted to
the URL shapes exercised.  A string without `://` only carries a
pathname. -/
def parseURL (u : String) : URLParts :=
  match splitFirst "://" u with
  | none => { pathname := if u = "" then none else some u }
  | some (scheme, rest) =>
    let rest2 := ((splitFirst "#" rest).map Prod.fst).getD rest
    let ap := match splitFirst "/" rest2 with
      | none => (rest2, "")
      | some (a, p) => (a, "/" ++ p)
    let pq := match splitFirst "?" ap.2 with
      | none => (ap.2, (none : Option String))
      | some (p, q) => (p, some ("?" ++ q))
    let hp := match splitFirst ":" ap.1 with
      | none => (ap.1, (none : Option String))
      | some (hst, pr) => (hst, some pr)
    { protocol := some (scheme ++ ":"), hostname := some hp.1, port := hp.2
      pathname := if pq.1 = "" then none else some pq.1, search := pq.2 }

/-- `url.host`: hostname with the port when present. -/
def urlHost (p : URLParts) : Option String :=
  p.hostname.map (fun h => match p.port with
    | some pr => h ++ ":" ++ pr
    | none => h)

/-- Modelled from the spec: URL resolution against a base
(jsdom's `Utils.resolveHref` and `DOM.resourceLoader.resolve`, both
external).  Covers the references exercised: empty (yields the base),
absolute, scheme-relative, root-relative and path-relative. -/
def resolveHref (base rel : String) : String :=
  if rel = "" then base
  else if (splitFirst "://" rel).isSome then rel
  else
    match splitFirst "://" base with
    | none => rel
    | some (scheme, rest) =>
      if startsWithStr "//" rel then scheme ++ ":" ++ rel
      else
        let authority := ((splitFirst "/" rest).map Prod.fst).getD rest
        let origin := scheme ++ "://" ++ authority
        if startsWithStr "/" rel then origin ++ rel
        else
          let basePath := "/" ++ (((splitFirst "/" rest).map Prod.snd).getD "")
          let noQuery := ((splitFirst "?" basePath).map Prod.fst).getD basePath
          let dir : String :=
            ⟨(noQuery.data.reverse.dropWhile (fun c => c ≠ '/')).reverse⟩
          origin ++ dir ++ rel

/-- Join strings with a separator. -/
def intercal (sep : String) : List String → String
  | [] => ""
  | [x] => x
  | x :: xs => x ++ sep ++ intercal sep xs

/-- Modelled from the spec: percent-escaping of query components (node's
querystring formatting, external), covering the characters exercised. -/
def qsEscapeChar (c : Char) : String :=
  if c = ' ' then "%20" else if c = '&' then "%26" else if c = '=' then "%3D"
  else if c = '%' then "%25" else if c = '+' then "%2B"
  else if c = '?' then "%3F" else ⟨[c]⟩

/-- Escape a full query component. -/
def qsEscape (s : String) : String :=
  s.data.foldl (fun acc c => acc ++ qsEscapeChar c) ""

/-- Add one parsed `k=v` pair to a query object: a repeated key collects
its values in order (node's query objects turn repeats into arrays). -/
def qsInsert (obj : List (String × List String)) (k v : String) :
    List (String × List String) :=
  if obj.any (fun p => p.1 == k) then
    obj.map (fun p => if p.1 == k then (p.1, p.2 ++ [v]) else p)
  else obj ++ [(k, [v])]

/-- Parse a query string into a query object. -/
def parseQS (q : String) : List (String × List String) :=
  if q = "" then []
  else (jsSplit q "&").foldl (fun acc seg =>
    match splitFirst "=" seg with
    | none => qsInsert acc seg ""
    | some (k, v) => qsInsert acc k v) []

/-- `Object.assign(query, params)`: each parameter key overwrites an
existing key's values in place or is appended. -/
def objAssign (base upd : List (String × List String)) :
    List (String × List String) :=
  upd.foldl (fun acc p =>
    if acc.any (fun q => q.1 == p.1) then
      acc.map (fun q => if q.1 == p.1 then (q.1, p.2) else q)
    else acc ++ [p]) base

/-- Format a query object, expanding array values into repeated keys. -/
def fmtQS (obj : List (String × List String)) : String :=
  intercal "&" (obj.foldl (fun acc p =>
    acc ++ p.2.map (fun v => qsEscape p.1 ++ "=" ++ qsEscape v)) [])

/-- `URL.parse(url, true)` / merge `params` / `URL.format`: splits off the
query, assigns the parameters over it, and reformats (fragments are not
exercised on this path). -/
def mergeQuery (url : String) (ps : List (String × List String)) : String :=
  let bq := match splitFirst "?" url with
    | none => (url, "")
    | some (b, q) => (b, q)
  let obj := objAssign (parseQS bq.2) ps
  if obj = [] then bq.1 else bq.1 ++ "?" ++ fmtQS obj

/-! ## Resource pipeline

Embeds `src/src/resources.js`.  The default pipeline is the fixed list
`normalizeURL`, `mergeHeaders`, `createBody` (request handlers, 2
arguments), the fixed `makeHTTPRequest` transport dispatch, then
`handleResponse`, `decompressBody`, `decodeBody` (response handlers, 3
arguments).  In-place mutation of the request/response objects becomes
explicit record updates threaded through the handlers; the shared cookie
store and the filesystem accesses are an explicit state.  The wire
transport, filesystem, cookie serialization, base64, zlib, iconv and the
`<meta charset>` regex are external and appear as configuration
functions. -/

/-- Mutable browser configuration read by the handlers (`browser.site`,
`browser.document` is the current document's URL, default headers, the
`authenticate` event's credentials, etc.). -/
structure Browser where
  site : Option String := none
  document : Option String := none
  userAgent : String := ""
  headers : List (String × String) := []
  maxRedirects : Nat := 5
  strictSSL : Bool := false
  localAddress : Nat := 0
  auth : Option (String × String) := none
deriving Repr

/-- One multipart part built by the pipeline's `formData` helper (string
values; `value.read` binary uploads are outside the exercised claims). -/
structure FormPart where
  disposition : String
  ctype : String
  clen : Nat
  content : String
deriving DecidableEq, Repr

/-- The `formData(name, value)` helper for a text value (lines 105-121). -/
def mkFormPart (name value : String) : FormPart :=
  { disposition := "form-data; name=\"" ++ name ++ "\""
    ctype := "text/plain; charset=utf8"
    clen := value.length
    content := value }

/-- The request record built by `Resources.request` and mutated along the
pipeline.  `redirects` is absent (0) on a fresh request and set on
redirect re-entry. -/
structure Req where
  method : String
  url : String
  headers : List (String × String)
  params : Option (List (String × List String)) := none
  body : Option String := none
  multipart : Option (List FormPart) := none
  time : Nat := 0
  timeout : Nat := 0
  strictSSL : Bool := false
  localAddress : Nat := 0
  redirects : Nat := 0
deriving DecidableEq, Repr

/-- A response body: raw bytes from the wire, or the string `decodeBody`
decodes them to. -/
inductive RBody
  | bytes (b : JSBytes)
  | str (s : String)
deriving DecidableEq, Repr

/-- The response record flowing through the pipeline; fields are filled
in gradually, as in the source. -/
structure PRes where
  url : Option String := none
  statusCode : Option Nat := none
  headers : List (String × String) := []
  body : Option RBody := none
  redirects : Option Nat := none
deriving DecidableEq, Repr

/-- Errors surfacing as a fetch's error outcome. -/
inductive PErr
  | tooManyRedirects (maxR : Nat)
  | unsupportedContentType (mime : String)
  | fsError (msg : String)
  | transportError (msg : String)
  | zlibError (msg : String)
  | pipelineDepthExceeded
deriving DecidableEq, Repr

/-- Filesystem operations the transport can perform.  `writeFile` is in
the vocabulary only so that "no write is ever performed" is expressible;
the embedding never emits it. -/
inductive FSOp
  | existsCheck (path : String)
  | readFile (path : String)
  | writeFile (path : String)
deriving DecidableEq, Repr

/-- One `cookies.update(values, host, path)` call recorded against the
shared cookie store. -/
structure CookieUpdate where
  values : List String
  host : String
  path : String
deriving DecidableEq, Repr

/-- Shared state threaded through one pipeline run: the cookie store's
update log and the filesystem access trace. -/
structure PState where
  jar : List CookieUpdate := []
  fsOps : List FSOp := []
deriving DecidableEq, Repr

/-- The request passed to the external `request` transport library. -/
structure TReq where
  method : String
  uri : String
  headers : List (String × String)
  body : Option String := none
  multipart : Option (List FormPart) := none
  timeout : Nat := 0
  strictSSL : Bool := false
  localAddress : Nat := 0
deriving DecidableEq, Repr

/-- The transport's completed response: status, headers (possibly
multi-valued, e.g. repeated `Set-Cookie`), the streamed body bytes. -/
structure TRes where
  statusCode : Nat
  headers : List (String × List String) := []
  body : JSBytes := []
  redirects : Option Nat := none
deriving DecidableEq, Repr

/-- The external collaborators of the pipeline: wire transport,
filesystem, cookie serialization, base64, zlib, iconv decoding, the
`<meta charset>` sniffing regex, `decodeURI`, `Path.normalize`, and the
random multipart boundary. -/
structure PCfg where
  transport : TReq → Except String TRes
  fsExists : String → Bool
  fsRead : String → Except String JSBytes
  cookieSerialize : List CookieUpdate → String → String → String
  base64 : String → String
  inflate : JSBytes → Except String JSBytes
  gunzip : JSBytes → Except String JSBytes
  iconvDecode : JSBytes → String → String
  sniffCharset : JSBytes → Option String
  decodeURI : String → String
  pathNormalize : String → String
  boundary : String

/-- `headers.toObject()`: a plain object keyed by name — the first
occurrence fixes the position, a later duplicate overwrites the value. -/
def headersToObject (h : List (String × String)) : List (String × String) :=
  h.foldl (fun acc p =>
    if acc.any (fun q => q.1 == p.1) then
      acc.map (fun q => if q.1 == p.1 then (q.1, p.2) else q)
    else acc ++ [p]) []

/-- `Resources.normalizeURL` (lines 335-355): resolve against the current
document URL (or `browser.site`, default `http://localhost`), then merge
`params` into the query string for GET/HEAD/DELETE. -/
def normalizeURL (browser : Browser) (req : Req) : Req :=
  let url1 := match browser.document with
    | some docUrl => resolveHref docUrl req.url
    | none => resolveHref (browser.site.getD "http://localhost") req.url
  let url2 := match req.params with
    | some ps =>
      if req.method = "GET" ∨ req.method = "HEAD" ∨ req.method = "DELETE" then
        mergeQuery url1 ps
      else url1
    | none => url1
  { req with url := url2 }

/-- `Resources.mergeHeaders` (lines 364-388): append the browser's
default headers, default `User-Agent`, force `Host` from the request URL,
and add Basic credentials when the `authenticate` extension point
supplies them. -/
def mergeHeaders (cfg : PCfg) (browser : Browser) (req : Req) : Req :=
  let h1 := browser.headers.foldl
    (fun acc p => Headers.append acc p.1 p.2) req.headers
  let h2 := if Headers.has h1 "User-Agent" then h1
            else Headers.set h1 "User-Agent" browser.userAgent
  let host := urlHost (parseURL req.url)
  let h3 := Headers.set h2 "Host" (host.getD "undefined")
  let h4 := match browser.auth with
    | some creds =>
      if creds.1 ≠ "" ∧ creds.2 ≠ "" then
        Headers.set h3 "authorization"
          ("Basic " ++ cfg.base64 (creds.1 ++ ":" ++ creds.2))
      else h3
    | none => h3
  { req with headers := h4 }

/-- `QS.stringify` over a params object with array values. -/
def qsStringify (ps : List (String × List String)) : String :=
  intercal "&" (ps.foldl (fun acc p =>
    acc ++ p.2.map (fun v => qsEscape p.1 ++ "=" ++ qsEscape v)) [])

/-- `Resources.createBody` (lines 393-450): POST/PUT only; defaults the
content type to `application/x-www-form-urlencoded`; an existing body
passes through; else the params are serialized per content type, with
multipart degrading to empty `text/plain` when there are no params, and
an unsupported content type failing the fetch. -/
def createBody (cfg : PCfg) (req : Req) : Except PErr Req :=
  if req.method ≠ "POST" ∧ req.method ≠ "PUT" then .ok req
  else
    let ct := (Headers.get req.headers "content-type").getD
      "application/x-www-form-urlencoded"
    let h1 := Headers.set req.headers "content-type" ct
    let mime := firstSeg ((Headers.get h1 "content-type").getD "")
    if req.body.isSome then .ok { req with headers := h1 }
    else
      let ps := req.params.getD []
      if mime = "application/x-www-form-urlencoded" then
        let bodyStr := qsStringify ps
        .ok { req with
          headers := Headers.set h1 "content-length" (toString bodyStr.length)
          body := some bodyStr }
      else if mime = "multipart/form-data" then
        if ps.length = 0 then
          .ok { req with
            headers := Headers.set h1 "content-type" "text/plain"
            body := some "" }
        else
          let withB := ((Headers.get h1 "content-type").getD "")
            ++ "; boundary=" ++ cfg.boundary
          .ok { req with
            headers := Headers.set h1 "content-type" withB
            multipart := some (ps.foldl (fun acc p =>
              acc ++ p.2.map (mkFormPart p.1)) []) }
      else if mime = "text/plain" then .ok { req with headers := h1 }
      else .error (.unsupportedContentType mime)

/-- The `file:` branch of `Resources.makeHTTPRequest` (lines 455-532):
GET only — 405 otherwise, 404 when the file is missing, read errors
propagate; only existence checks and reads are traced.  Each variant of
`makeHTTPRequest` returns the result, the request (whose headers the wire
branch mutates), and the state with the filesystem trace. -/
def makeFileRequest (cfg : PCfg) (req : Req) (st : PState) :
    Except PErr PRes × Req × PState :=
  if req.method ≠ "GET" then (.ok { statusCode := some 405 }, req, st)
  else
    let filename := cfg.pathNormalize
      (cfg.decodeURI (((parseURL req.url).pathname).getD ""))
    let st1 := { st with fsOps := st.fsOps ++ [.existsCheck filename] }
    if cfg.fsExists filename then
      let st2 := { st1 with fsOps := st1.fsOps ++ [.readFile filename] }
      match cfg.fsRead filename with
      | .error e => (.error (.fsError e), req, st2)
      | .ok buf => (.ok { body := some (.bytes buf) }, req, st2)
    else (.ok { statusCode := some 404 }, req, st1)

/-- The wire branch of `makeHTTPRequest`: append the serialized `Cookie`
header, dispatch to the external transport, and flatten the multi-valued
response headers into the header collection. -/
def makeWireRequest (cfg : PCfg) (req : Req) (st : PState) :
    Except PErr PRes × Req × PState :=
  let parts := parseURL req.url
  let cookieVal := cfg.cookieSerialize st.jar ((parts.hostname).getD "")
    ((parts.pathname).getD "")
  let req1 := { req with
    headers := Headers.append req.headers "Cookie" cookieVal }
  let treq : TReq :=
    { method := req1.method, uri := req1.url
      headers := headersToObject req1.headers, body := req1.body
      multipart := req1.multipart, timeout := req1.timeout
      strictSSL := req1.strictSSL, localAddress := req1.localAddress }
  match cfg.transport treq with
  | .error msg => (.error (.transportError msg), req1, st)
  | .ok tr =>
    let arrayOfHeaders := tr.headers.foldl
      (fun acc p => acc ++ p.2.map (fun v => (p.1, v))) []
    (.ok { url := some req1.url, statusCode := some tr.statusCode,
           headers := Headers.ofPairs arrayOfHeaders,
           body := some (.bytes tr.body),
           redirects := some (tr.redirects.getD 0) }, req1, st)

/-- Dispatch on the scheme: `file:` is served from the filesystem,
anything else goes to the wire. -/
def makeHTTPRequest (cfg : PCfg) (req : Req) (st : PState) :
    Except PErr PRes × Req × PState :=
  if (parseURL req.url).protocol = some "file:" then
    makeFileRequest cfg req st
  else makeWireRequest cfg req st

/-- Outcome of `Resources.handleResponse` before re-entering the
pipeline: pass the (possibly annotated) response on, re-enter with a new
request, or fail. -/
inductive HRStep
  | terminal (res : PRes)
  | redirect (newReq : Req) (res : PRes)
  | fail (e : PErr)
deriving Repr

/-- `Resources.handleResponse` (lines 535-598): normalize the headers;
non-HTTP(S) responses pass through; record `Set-Cookie` values in the
shared store; compute redirect eligibility by status code — 301/307 only
for GET/HEAD, 302/303 for any method, anything else terminal; on
redirect, resolve `Location`, increment the counter, fail past the
maximum, else build a new GET request inheriting headers with `Referer`
replaced and the content headers stripped.  The non-redirect exit records
the accumulated redirect count. -/
def handleResponse (browser : Browser) (req : Req) (res0 : PRes)
    (st : PState) : HRStep × PState :=
  let res := { res0 with headers := Headers.ofPairs res0.headers }
  let parts := parseURL req.url
  if parts.protocol ≠ some "http:" ∧ parts.protocol ≠ some "https:" then
    (.terminal res, st)
  else
    let newCookies := Headers.getAll res.headers "Set-Cookie"
    let st1 := { st with jar := st.jar ++
      [{ values := newCookies, host := (parts.hostname).getD ""
         path := (parts.pathname).getD "" }] }
    let redirects := req.redirects
    let redirectUrl : Option String :=
      match res.statusCode with
      | some c =>
        if (c = 301 ∨ c = 307) ∧ (req.method = "GET" ∨ req.method = "HEAD")
        then
          some (resolveHref req.url ((Headers.get res.headers "Location").getD ""))
        else if c = 302 ∨ c = 303 then
          some (resolveHref req.url ((Headers.get res.headers "Location").getD ""))
        else none
      | none => none
    match redirectUrl with
    | some ru =>
      if ru = "" then (.terminal { res with redirects := some redirects }, st1)
      else
        let res1 := { res with url := some ru }
        if redirects + 1 > browser.maxRedirects then
          (.fail (.tooManyRedirects browser.maxRedirects), st1)
        else
          let rh1 := Headers.set (Headers.ofPairs req.headers) "Referer" req.url
          let rh2 := Headers.delete (Headers.delete (Headers.delete rh1
            "Content-Type") "Content-Length") "Content-Transfer-Encoding"
          let newReq : Req :=
            { method := "GET", url := ru, headers := rh2
              redirects := redirects + 1, strictSSL := req.strictSSL
              time := req.time, timeout := req.timeout }
          (.redirect newReq res1, st1)
    | none => (.terminal { res with redirects := some redirects }, st1)

/-- Bytes of a pipeline response body as zlib would receive them. -/
def rbodyBytes : Option RBody → JSBytes
  | some (.bytes b) => b
  | some (.str s) => strBytes s
  | none => []

/-- `Resources.decompressBody` (lines 602-617): inflate/gunzip per
`Content-Encoding` or (non-standard, intentional) `Transfer-Encoding`;
decompression failure propagates as the fetch's error. -/
def decompressBody (cfg : PCfg) (res : PRes) : Except PErr PRes :=
  let te := Headers.get res.headers "Transfer-Encoding"
  let ce := Headers.get res.headers "Content-Encoding"
  if ce = some "deflate" ∨ te = some "deflate" then
    match cfg.inflate (rbodyBytes res.body) with
    | .ok buf => .ok { res with body := some (.bytes buf) }
    | .error m => .error (.zlibError m)
  else if ce = some "gzip" ∨ te = some "gzip" then
    match cfg.gunzip (rbodyBytes res.body) with
    | .ok buf => .ok { res with body := some (.bytes buf) }
    | .error m => .error (.zlibError m)
  else .ok res

/-- Substring test (used for the `/html/` test on the subtype). -/
def containsSub (s pat : String) : Bool :=
  decide (1 < (jsSplit s pat).length)

/-- JavaScript word characters, for `\b` boundaries. -/
def isWordChar (c : Char) : Bool := c.isAlphanum || c = '_'

/-- Whether a word-boundary precedes the current position. -/
def boundaryOk : Option Char → Bool
  | none => true
  | some p => !isWordChar p

/-- Scan for a `\b w \b` match, tracking the previous character. -/
def containsWordAux (w : List Char) : Option Char → List Char → Bool
  | _, [] => false
  | prev, c :: cs =>
    (boundaryOk prev
      && (match dropPre? w (c :: cs) with
          | some rest =>
            match rest with
            | [] => true
            | d :: _ => !isWordChar d
          | none => false))
    || containsWordAux w (some c) cs

/-- The `/\bhtml\b/`-style word test on a string. -/
def containsWord (s w : String) : Bool := containsWordAux w.data none s.data

/-- Leading-space trimming for the `/;\s*/` content-type split (spaces
are the whitespace exercised). -/
def trimLeadingSpaces (s : String) : String :=
  ⟨s.data.dropWhile (fun c => c = ' ')⟩

/-- First `charset=` (case-insensitive) type option's value. -/
def findCharsetOpt : List String → Option String
  | [] => none
  | opt :: rest =>
    if jsToLower ⟨opt.data.take 8⟩ = "charset=" then
      some (((jsSplit opt "=").drop 1).headD "")
    else findCharsetOpt rest

/-- `Resources.decodeBody` (lines 621-660): buffers only; non-`text`
types pass through untouched; the charset comes from an explicit
`charset=` option, else — HTML flavored content only (subtype containing
`html`, or an Accept header with the word `html`) — from sniffing the
body (the `MATCH_CHARSET` regex, abstracted as `cfg.sniffCharset`) with
`windows-1252` as default; a found charset decodes the body to a string,
otherwise the body stays raw. -/
def decodeBody (cfg : PCfg) (req : Req) (res : PRes) : PRes :=
  match res.body with
  | some (.bytes buf) =>
    let contentType := (Headers.get res.headers "Content-Type").getD
      "application/unknown"
    let segs := jsSplit contentType ";"
    let mimeType := segs.headD ""
    let typeOptions := (segs.drop 1).map trimLeadingSpaces
    let slashParts := jsSplit contentType "/"
    let ctype := slashParts.headD ""
    let subtype := (slashParts.drop 1).head?
    if ctype ≠ "" ∧ ctype ≠ "text" then res
    else
      let charset0 := if mimeType ≠ "" then findCharsetOpt typeOptions
                      else none
      let isHTML :=
        (match subtype with
         | some sub => containsSub sub "html"
         | none => false)
        || (match Headers.get req.headers "Accept" with
            | some acc => containsWord acc "html"
            | none => false)
      let charset := match charset0 with
        | some c => some c
        | none =>
          if isHTML then some ((cfg.sniffCharset buf).getD "windows-1252")
          else none
      match charset with
      | some c => { res with body := some (.str (cfg.iconvDecode buf c)) }
      | none => res
  | _ => res

/-- The response-handler tail after `handleResponse`: `decompressBody`
then `decodeBody` (also re-applied to the response of a recursive
redirect run, as the continuation chain does). -/
def afterHandle (cfg : PCfg) (req : Req) (res : PRes) (st : PState) :
    Except PErr PRes × PState :=
  match decompressBody cfg res with
  | .error e => (.error e, st)
  | .ok res1 => (.ok (decodeBody cfg req res1), st)

/-- `Resources._runPipeline` with the default handler list: request
handlers in order, transport dispatch, then response handlers, with
`handleResponse` re-entering the whole pipeline on redirect (the re-entry
depth is bounded by the redirect counter check, so any fuel above
`maxRedirects + 1` is never exhausted; the fuel-out constructor only
makes the recursion structural).  Also returns the (mutated) top-level
request, which the resource record keeps.  The `res.url = res.url ||
req.url` backfill of `nextRequestHandler` follows transport dispatch. -/
def runPipeline (cfg : PCfg) (browser : Browser) :
    Nat → Req → PState → Except PErr PRes × PState × Req
  | 0, req, st => (.error .pipelineDepthExceeded, st, req)
  | Nat.succ fuel, req0, st0 =>
    let req1 := normalizeURL browser req0
    let req2 := mergeHeaders cfg browser req1
    match createBody cfg req2 with
    | .error e => (.error e, st0, req2)
    | .ok req3 =>
      match makeHTTPRequest cfg req3 st0 with
      | (.error e, req4, st1) => (.error e, st1, req4)
      | (.ok pres0, req4, st1) =>
        let pres1 := { pres0 with url := match pres0.url with
          | some u => if u = "" then some req4.url else some u
          | none => some req4.url }
        match handleResponse browser req4 pres1 st1 with
        | (.fail e, st2) => (.error e, st2, req4)
        | (.terminal res, st2) =>
          let r := afterHandle cfg req4 res st2
          (r.1, r.2, req4)
        | (.redirect newReq _, st2) =>
          match runPipeline cfg browser fuel newReq st2 with
          | (.error e, st3, _) => (.error e, st3, req4)
          | (.ok inner, st3, _) =>
            let r := afterHandle cfg req4 inner st3
            (r.1, r.2, req4)

/-- Options of `Resources.request`. -/
structure ReqOptions where
  headers : List (String × String) := []
  params : Option (List (String × List String)) := none
  body : Option String := none
  timeout : Nat := 0
  target : Option String := none
deriving Repr

/-- The finalized response `Resources.request` resolves with. -/
structure FinalRes where
  url : String
  statusCode : Nat
  statusText : String
  headers : List (String × String)
  body : Option RBody
  redirects : Nat
  time : Nat
deriving DecidableEq, Repr

/-- One entry of the browser's append-only resource history (the
`Resource` class): the request and, once finalized, the response or the
error (mutually exclusive). -/
structure ResourceRec where
  request : Req
  response : Option FinalRes := none
  errorR : Option PErr := none
  target : Option String := none
deriving Repr

/-- Browser-wide state around a fetch: resource history plus the pipeline
state. -/
structure RState where
  history : List ResourceRec := []
  pipe : PState := {}
deriving Repr

/-- `Resources.request` (lines 221-266): build the request record, push a
pending `Resource` into the history at call time, run the pipeline, then
finalize that same record — an error keeps `response` null, a success
defaults the status code to 200 (0 is falsy), looks up the status text,
defaults `redirects`, stamps the completion time.  `now`/`fin` stand for
the two `Date.now()` readings. -/
def Resources.request (cfg : PCfg) (browser : Browser) (method url : String)
    (opts : ReqOptions) (now fin : Nat) (st : RState) :
    Except PErr FinalRes × RState :=
  let req : Req :=
    { method := jsToUpper method, url := url
      headers := Headers.ofPairs opts.headers, params := opts.params
      body := opts.body, time := now, timeout := opts.timeout
      strictSSL := browser.strictSSL, localAddress := browser.localAddress }
  let idx := st.history.length
  let st1 : RState := { st with history := st.history
    ++ [{ request := req, target := opts.target }] }
  match runPipeline cfg browser (browser.maxRedirects + 2) req st1.pipe with
  | (.error e, pst, reqFinal) =>
    (.error e,
     { history := st1.history.set idx
         { request := reqFinal, errorR := some e, target := opts.target }
       pipe := pst })
  | (.ok res, pst, reqFinal) =>
    let sc := match res.statusCode with
      | some c => if c = 0 then 200 else c
      | none => 200
    let fr : FinalRes :=
      { url := (res.url).getD ""
        statusCode := sc
        statusText := (statusCodes sc).getD "Unknown"
        headers := res.headers, body := res.body
        redirects := (res.redirects).getD 0, time := fin }
    (.ok fr,
     { history := st1.history.set idx
         { request := reqFinal, response := some fr, target := opts.target }
       pipe := pst })

/-! ### Pipeline lemmas -/

theorem data_append_str (s t : String) : (s ++ t).data = s.data ++ t.data := rfl

theorem str_append_ne_empty (s t : String) (ht : t ≠ "") : s ++ t ≠ "" := by
  intro h
  apply ht
  have hd : s.data ++ t.data = [] := by
    have h2 := congrArg String.data h
    rw [data_append_str] at h2
    exact h2
  have h3 : t.data = [] := (List.append_eq_nil.mp hd).2
  obtain ⟨d⟩ := t
  simp only at h3
  rw [h3]

theorem resolveHref_ne_empty (base rel : String) (hb : base ≠ "") :
    resolveHref base rel ≠ "" := by
  unfold resolveHref
  by_cases h1 : rel = ""
  · rw [if_pos h1]; exact hb
  · rw [if_neg h1]
    by_cases h2 : (splitFirst "://" rel).isSome = true
    · rw [if_pos h2]; exact h1
    · rw [if_neg h2]
      cases hsp : splitFirst "://" base with
      | none => exact h1
      | some pr =>
        by_cases h3 : startsWithStr "//" rel = true
        · simp only [h3, if_true]
          exact str_append_ne_empty _ _ h1
        · simp only [h3, Bool.false_eq_true, if_false]
          by_cases h4 : startsWithStr "/" rel = true
          · simp only [h4, if_true]
            exact str_append_ne_empty _ _ h1
          · simp only [h4, Bool.false_eq_true, if_false]
            exact str_append_ne_empty _ _ h1

theorem set_append_len (l : List α) (a b : α) :
    (l ++ [a]).set l.length b = l ++ [b] := by
  induction l with
  | nil => rfl
  | cons x xs ih => simp [List.set, ih]

theorem handleResponse_redirects (browser : Browser) (req : Req) (res0 : PRes)
    (st : PState) (c : Nat)
    (hproto : (parseURL req.url).protocol = some "http:"
      ∨ (parseURL req.url).protocol = some "https:")
    (hsc : res0.statusCode = some c)
    (hurl : req.url ≠ "")
    (helig : ((c = 301 ∨ c = 307) ∧ (req.method = "GET" ∨ req.method = "HEAD"))
      ∨ (c = 302 ∨ c = 303)) :
    (browser.maxRedirects < req.redirects + 1
      → (handleResponse browser req res0 st).1
          = .fail (.tooManyRedirects browser.maxRedirects))
    ∧ (req.redirects + 1 ≤ browser.maxRedirects
      → ∃ nr res1, (handleResponse browser req res0 st).1 = .redirect nr res1
          ∧ nr.method = "GET" ∧ nr.redirects = req.redirects + 1
          ∧ nr.url = resolveHref req.url
              ((Headers.get (Headers.ofPairs res0.headers) "Location").getD "")
          ∧ res1.url = some nr.url) := by
  have hcond : ¬((parseURL req.url).protocol ≠ some "http:"
      ∧ (parseURL req.url).protocol ≠ some "https:") := by
    rcases hproto with h | h <;> simp [h]
  have hru : resolveHref req.url
      ((Headers.get (Headers.ofPairs res0.headers) "Location").getD "") ≠ "" :=
    resolveHref_ne_empty _ _ hurl
  simp only [handleResponse, hsc]
  rw [if_neg hcond]
  rcases helig with ⟨hc, hm⟩ | hc
  · rw [if_pos ⟨hc, hm⟩]
    simp only [hru, ite_false]
    constructor
    · intro hgt
      rw [if_pos hgt]
    · intro hle
      have hngt : ¬(browser.maxRedirects < req.redirects + 1) := by omega
      rw [if_neg hngt]
      exact ⟨_, _, rfl, rfl, rfl, rfl, rfl⟩
  · have hnP1 : ¬((c = 301 ∨ c = 307)
        ∧ (req.method = "GET" ∨ req.method = "HEAD")) := by
      rcases hc with rfl | rfl <;> simp
    rw [if_neg hnP1, if_pos hc]
    simp only [hru, ite_false]
    constructor
    · intro hgt
      rw [if_pos hgt]
    · intro hle
      have hngt : ¬(browser.maxRedirects < req.redirects + 1) := by omega
      rw [if_neg hngt]
      exact ⟨_, _, rfl, rfl, rfl, rfl, rfl⟩

theorem handleResponse_terminal (browser : Browser) (req : Req) (res0 : PRes)
    (st : PState) (c : Nat)
    (hproto : (parseURL req.url).protocol = some "http:"
      ∨ (parseURL req.url).protocol = some "https:")
    (hsc : res0.statusCode = some c)
    (hn1 : ¬((c = 301 ∨ c = 307) ∧ (req.method = "GET" ∨ req.method = "HEAD")))
    (hn2 : ¬(c = 302 ∨ c = 303)) :
    ∃ res1, (handleResponse browser req res0 st).1 = .terminal res1
      ∧ res1.redirects = some req.redirects
      ∧ res1.statusCode = some c := by
  have hcond : ¬((parseURL req.url).protocol ≠ some "http:"
      ∧ (parseURL req.url).protocol ≠ some "https:") := by
    rcases hproto with h | h <;> simp [h]
  simp only [handleResponse, hsc]
  rw [if_neg hcond, if_neg hn1, if_neg hn2]
  exact ⟨_, rfl, rfl, rfl⟩

/-- C1 (amended): redirect eligibility follows the status code — a
301/307 response is followed only when the request method is GET or HEAD,
but the follow-up request always uses method GET (so the method is
preserved only when it was GET; a HEAD request redirected by 301/307 is
re-fetched as GET); a 302/303 response is followed for any request method
with a GET follow-up; a response with any other status code is terminal
(the handler passes it on with the accumulated redirect count, issuing no
follow-up request).  Stated within the redirect budget; the budget check
itself is claim C3. -/
theorem claim_C1 (browser : Browser) (req : Req) (res0 : PRes) (st : PState)
    (c : Nat)
    (hproto : (parseURL req.url).protocol = some "http:"
      ∨ (parseURL req.url).protocol = some "https:")
    (hsc : res0.statusCode = some c)
    (hurl : req.url ≠ "")
    (hmax : req.redirects + 1 ≤ browser.maxRedirects) :
    (((c = 301 ∨ c = 307) ∧ (req.method = "GET" ∨ req.method = "HEAD")) →
       ∃ nr res1, (handleResponse browser req res0 st).1
           = .redirect nr res1 ∧ nr.method = "GET")
    ∧ (((c = 301 ∨ c = 307) ∧ ¬(req.method = "GET" ∨ req.method = "HEAD")) →
       ∃ res1, (handleResponse browser req res0 st).1 = .terminal res1
         ∧ res1.redirects = some req.redirects)
    ∧ ((c = 302 ∨ c = 303) →
       ∃ nr res1, (handleResponse browser req res0 st).1
           = .redirect nr res1 ∧ nr.method = "GET")
    ∧ (¬(c = 301 ∨ c = 302 ∨ c = 303 ∨ c = 307) →
       ∃ res1, (handleResponse browser req res0 st).1 = .terminal res1
         ∧ res1.redirects = some req.redirects) := by
  refine ⟨?_, ?_, ?_, ?_⟩
  · intro h
    obtain ⟨nr, res1, heq, hm, _⟩ :=
      ((handleResponse_redirects browser req res0 st c hproto hsc hurl
        (Or.inl h)).2 hmax)
    exact ⟨nr, res1, heq, hm⟩
  · intro h
    have hn2 : ¬(c = 302 ∨ c = 303) := by
      rcases h.1 with rfl | rfl <;> simp
    obtain ⟨res1, heq, hr, _⟩ := handleResponse_terminal browser req res0 st c
      hproto hsc (fun hx => h.2 hx.2) hn2
    exact ⟨res1, heq, hr⟩
  · intro h
    obtain ⟨nr, res1, heq, hm, _⟩ :=
      ((handleResponse_redirects browser req res0 st c hproto hsc hurl
        (Or.inr h)).2 hmax)
    exact ⟨nr, res1, heq, hm⟩
  · intro h
    have hn1 : ¬((c = 301 ∨ c = 307)
        ∧ (req.method = "GET" ∨ req.method = "HEAD")) := by
      intro hx
      rcases hx.1 with rfl | rfl
      · exact h (Or.inl rfl)
      · exact h (Or.inr (Or.inr (Or.inr rfl)))
    have hn2 : ¬(c = 302 ∨ c = 303) := by
      intro hx
      rcases hx with rfl | rfl
      · exact h (Or.inr (Or.inl rfl))
      · exact h (Or.inr (Or.inr (Or.inl rfl)))
    obtain ⟨res1, heq, hr, _⟩ :=
      handleResponse_terminal browser req res0 st c hproto hsc hn1 hn2
    exact ⟨res1, heq, hr⟩

/-- A HEAD request about to receive a 301. -/
def c1Req : Req :=
  { method := "HEAD", url := "http://example.test/a", headers := [] }

/-- A 301 response pointing at `/b`. -/
def c1Res : PRes :=
  { statusCode := some 301
    headers := [("Location", "http://example.test/b")] }

/-- A browser with a roomy redirect budget. -/
def c1Browser : Browser := { userAgent := "UA", maxRedirects := 5 }

/-- The follow-up request's method, when the handler redirects. -/
def c1FollowMethod : Option String :=
  match (handleResponse c1Browser c1Req c1Res {}).1 with
  | .redirect nr _ => some nr.method
  | _ => none

/-- C1 (counterexample): the claim says a followed 301/307 preserves the
request method, but a HEAD request receiving a 301 is followed with a GET
follow-up — `handleResponse` hardcodes method GET for every redirect. -/
theorem claim_C1_counterexample :
    c1FollowMethod = some "GET" ∧ c1Req.method = "HEAD" := ⟨rfl, rfl⟩

theorem claim_C1_witness :
    ∃ nr res1,
      (handleResponse c1Browser
        { method := "GET", url := "http://example.test/a", headers := [] }
        c1Res {}).1 = HRStep.redirect nr res1 ∧ nr.method = "GET" :=
  (claim_C1 c1Browser
    { method := "GET", url := "http://example.test/a", headers := [] }
    c1Res {} 301 (by decide) rfl (by decide) (by decide)).1 (by decide)

/-- Wire behaviour for the 3-hop redirect chain: `/a → /b → /c → /d`. -/
def c3Transport (t : TReq) : Except String TRes :=
  if t.uri = "http://example.test/a" then
    .ok { statusCode := 302
          headers := [("location", ["http://example.test/b"])] }
  else if t.uri = "http://example.test/b" then
    .ok { statusCode := 302
          headers := [("location", ["http://example.test/c"])] }
  else if t.uri = "http://example.test/c" then
    .ok { statusCode := 302
          headers := [("location", ["http://example.test/d"])] }
  else .ok { statusCode := 200 }

/-- Inert external collaborators for concrete runs. -/
def cfg0 : PCfg :=
  { transport := fun _ => .error "no transport"
    fsExists := fun _ => false
    fsRead := fun _ => .error "no fs"
    cookieSerialize := fun _ _ _ => ""
    base64 := fun s => s
    inflate := fun b => .ok b
    gunzip := fun b => .ok b
    iconvDecode := fun b _ => ⟨b.map Char.ofNat⟩
    sniffCharset := fun _ => none
    decodeURI := id
    pathNormalize := id
    boundary := "b" }

/-- Pipeline configuration for the 3-hop chain. -/
def c3Cfg : PCfg := { cfg0 with transport := c3Transport }

/-- A browser allowing at most 2 redirects. -/
def c3Browser : Browser := { userAgent := "UA", maxRedirects := 2 }

/-- The full fetch of `/a` against the 3-hop chain with max redirects 2. -/
def c3Run : Except PErr FinalRes × RState :=
  Resources.request c3Cfg c3Browser "get" "http://example.test/a" {} 0 0 {}

/-- C3: every followed redirect carries counter + 1 into the follow-up
request; when the incremented counter exceeds the browser's maximum, the
handler fails with the too-many-redirects error instead of re-entering
the pipeline; concretely, fetching a 3-hop redirect chain with maximum 2
resolves with that error. -/
theorem claim_C3 (browser : Browser) (req : Req) (res0 : PRes) (st : PState)
    (c : Nat)
    (hproto : (parseURL req.url).protocol = some "http:"
      ∨ (parseURL req.url).protocol = some "https:")
    (hsc : res0.statusCode = some c)
    (hurl : req.url ≠ "")
    (helig : ((c = 301 ∨ c = 307) ∧ (req.method = "GET" ∨ req.method = "HEAD"))
      ∨ (c = 302 ∨ c = 303)) :
    (browser.maxRedirects < req.redirects + 1
      → (handleResponse browser req res0 st).1
          = .fail (.tooManyRedirects browser.maxRedirects))
    ∧ (req.redirects + 1 ≤ browser.maxRedirects
      → ∃ nr res1, (handleResponse browser req res0 st).1 = .redirect nr res1
          ∧ nr.redirects = req.redirects + 1)
    ∧ c3Run.1 = Except.error (.tooManyRedirects 2) := by
  have h := handleResponse_redirects browser req res0 st c hproto hsc hurl helig
  refine ⟨h.1, ?_, ?_⟩
  · intro hle
    obtain ⟨nr, res1, heq, _, hr, _⟩ := h.2 hle
    exact ⟨nr, res1, heq, hr⟩
  · rfl

theorem claim_C3_witness :
    (handleResponse c3Browser
      { method := "GET", url := "http://example.test/c", headers := []
        redirects := 2 }
      { statusCode := some 302
        headers := [("location", "http://example.test/d")] } {}).1
      = HRStep.fail (.tooManyRedirects 2) :=
  (claim_C3 c3Browser
    { method := "GET", url := "http://example.test/c", headers := []
      redirects := 2 }
    { statusCode := some 302
      headers := [("location", "http://example.test/d")] } {} 302
    (by decide) rfl (by decide) (by decide)).1 (by decide)

theorem request_appends_one (cfg : PCfg) (browser : Browser)
    (method url : String) (opts : ReqOptions) (now fin : Nat) (st : RState) :
    ∃ rec,
      (Resources.request cfg browser method url opts now fin st).2.history
        = st.history ++ [rec]
      ∧ (∀ r, (Resources.request cfg browser method url opts now fin st).1
            = .ok r → rec.response = some r ∧ rec.errorR = none)
      ∧ (∀ e, (Resources.request cfg browser method url opts now fin st).1
            = .error e → rec.errorR = some e ∧ rec.response = none) := by
  simp only [Resources.request]
  rcases hout : runPipeline cfg browser (browser.maxRedirects + 2)
      { method := jsToUpper method, url := url
        headers := Headers.ofPairs opts.headers, params := opts.params
        body := opts.body, time := now, timeout := opts.timeout
        strictSSL := browser.strictSSL
        localAddress := browser.localAddress } st.pipe
    with ⟨r, pst, reqFinal⟩
  cases r with
  | error e =>
    refine ⟨{ request := reqFinal, errorR := some e, target := opts.target },
      ?_, ?_, ?_⟩
    · exact set_append_len st.history _ _
    · intro r2 hr
      exact Except.noConfusion hr
    · intro e2 he
      injection he with h2
      cases h2
      exact ⟨rfl, rfl⟩
  | ok res =>
    refine ⟨{ request := reqFinal
              response := some
                { url := (res.url).getD ""
                  statusCode := (match res.statusCode with
                    | some c => if c = 0 then 200 else c
                    | none => 200)
                  statusText := (statusCodes (match res.statusCode with
                    | some c => if c = 0 then 200 else c
                    | none => 200)).getD "Unknown"
                  headers := res.headers, body := res.body
                  redirects := (res.redirects).getD 0, time := fin }
              target := opts.target }, ?_, ?_, ?_⟩
    · exact set_append_len st.history _ _
    · intro r2 hr
      injection hr with h2
      cases h2
      exact ⟨rfl, rfl⟩
    · intro e2 he
      exact Except.noConfusion he

/-- Wire behaviour for the single 302 hop `/a → /b`. -/
def c2Transport (t : TReq) : Except String TRes :=
  if t.uri = "http://example.test/a" then
    .ok { statusCode := 302
          headers := [("location", ["http://example.test/b"])] }
  else if t.uri = "http://example.test/b" then
    .ok { statusCode := 200, body := strBytes "hi" }
  else .error "unexpected url"

/-- Pipeline configuration for the single-hop scenario. -/
def c2Cfg : PCfg := { cfg0 with transport := c2Transport }

/-- The browser for the single-hop scenario. -/
def c2Browser : Browser := { userAgent := "UA", maxRedirects := 2 }

/-- The full fetch of `/a`, 302-redirected once to `/b`. -/
def c2Out : Except PErr FinalRes × RState :=
  Resources.request c2Cfg c2Browser "get" "http://example.test/a" {} 0 7 {}

/-- Resolved URL of the single-hop fetch. -/
def c2FinalUrl : Option String :=
  match c2Out.1 with
  | .ok r => some r.url
  | .error _ => none

/-- Redirect count of the single-hop fetch. -/
def c2FinalRedirects : Option Nat :=
  match c2Out.1 with
  | .ok r => some r.redirects
  | .error _ => none

/-- C2: every `request` call appends exactly one resource record to the
history at call time, finalized in place with the outcome (response and
error mutually exclusive); redirect re-entries run only `_runPipeline`,
which never touches the history, so intermediate hops are not separately
logged — concretely, fetching `/a` with a 302 hop to `/b` leaves exactly
one record and resolves with url `/b` and `redirects = 1`. -/
theorem claim_C2 (cfg : PCfg) (browser : Browser) (method url : String)
    (opts : ReqOptions) (now fin : Nat) (st : RState) :
    (∃ rec,
      (Resources.request cfg browser method url opts now fin st).2.history
        = st.history ++ [rec]
      ∧ (∀ r, (Resources.request cfg browser method url opts now fin st).1
            = .ok r → rec.response = some r ∧ rec.errorR = none)
      ∧ (∀ e, (Resources.request cfg browser method url opts now fin st).1
            = .error e → rec.errorR = some e ∧ rec.response = none))
    ∧ c2Out.2.history.length = 1
    ∧ c2FinalUrl = some "http://example.test/b"
    ∧ c2FinalRedirects = some 1 := by
  refine ⟨request_appends_one cfg browser method url opts now fin st,
    ?_, ?_, ?_⟩ <;> rfl

theorem claim_C2_witness :
    ∃ rec, c2Out.2.history = [] ++ [rec]
      ∧ (∀ r, c2Out.1 = .ok r → rec.response = some r ∧ rec.errorR = none)
      ∧ (∀ e, c2Out.1 = .error e → rec.errorR = some e ∧ rec.response = none) :=
  (claim_C2 c2Cfg c2Browser "get" "http://example.test/a" {} 0 7 {}).1

theorem makeWire_state (cfg : PCfg) (req : Req) (st : PState) :
    (makeWireRequest cfg req st).2.2 = st := by
  simp only [makeWireRequest]
  split <;> rfl

theorem makeFile_noWrite (cfg : PCfg) (req : Req) (st : PState) (pth : String)
    (h : FSOp.writeFile pth ∈ (makeFileRequest cfg req st).2.2.fsOps) :
    FSOp.writeFile pth ∈ st.fsOps := by
  simp only [makeFileRequest] at h
  split at h
  · exact h
  · split at h
    · split at h
      · simp only [List.append_assoc, List.mem_append, List.mem_cons,
          List.not_mem_nil, or_false] at h
        rcases h with h | h | h
        · exact h
        · cases h
        · cases h
      · simp only [List.append_assoc, List.mem_append, List.mem_cons,
          List.not_mem_nil, or_false] at h
        rcases h with h | h | h
        · exact h
        · cases h
        · cases h
    · simp only [List.mem_append, List.mem_cons, List.not_mem_nil,
        or_false] at h
      rcases h with h | h
      · exact h
      · cases h

theorem makeHTTP_noWrite (cfg : PCfg) (req : Req) (st : PState) (pth : String)
    (h : FSOp.writeFile pth ∈ (makeHTTPRequest cfg req st).2.2.fsOps) :
    FSOp.writeFile pth ∈ st.fsOps := by
  simp only [makeHTTPRequest] at h
  split at h
  · exact makeFile_noWrite cfg req st pth h
  · rw [makeWire_state] at h
    exact h

theorem handleResponse_fsOps (browser : Browser) (req : Req) (res : PRes)
    (st : PState) : (handleResponse browser req res st).2.fsOps = st.fsOps := by
  simp only [handleResponse]
  split
  · rfl
  · split
    · split
      · rfl
      · split
        · rfl
        · rfl
    · rfl

theorem afterHandle_state (cfg : PCfg) (req : Req) (res : PRes) (st : PState) :
    (afterHandle cfg req res st).2 = st := by
  simp only [afterHandle]
  split <;> rfl

theorem handleResponse_fsOps_eq (browser : Browser) (req : Req) (res : PRes)
    (st : PState) (step : HRStep) (st' : PState)
    (heq : handleResponse browser req res st = (step, st')) :
    st'.fsOps = st.fsOps := by
  have h := handleResponse_fsOps browser req res st
  rw [heq] at h
  exact h

theorem runPipeline_noWrite (cfg : PCfg) (browser : Browser) :
    ∀ (fuel : Nat) (req : Req) (st : PState) (pth : String),
      FSOp.writeFile pth ∈ (runPipeline cfg browser fuel req st).2.1.fsOps →
      FSOp.writeFile pth ∈ st.fsOps := by
  intro fuel
  induction fuel with
  | zero => intro req st pth h; exact h
  | succ fuel ih =>
    intro req st pth h
    simp only [runPipeline] at h
    split at h
    · exact h
    · rename_i req3 heq1
      split at h
      · rename_i e req4 st1 heq2
        have h1 : FSOp.writeFile pth ∈ st1.fsOps := h
        have h2 : FSOp.writeFile pth
            ∈ (makeHTTPRequest cfg req3 st).2.2.fsOps := by
          rw [heq2]; exact h1
        exact makeHTTP_noWrite cfg req3 st pth h2
      · rename_i pres0 req4 st1 heq2
        split at h
        · rename_i e st2 heq3
          have h1 : FSOp.writeFile pth ∈ st2.fsOps := h
          rw [handleResponse_fsOps_eq _ _ _ _ _ _ heq3] at h1
          have h2 : FSOp.writeFile pth
              ∈ (makeHTTPRequest cfg req3 st).2.2.fsOps := by
            rw [heq2]; exact h1
          exact makeHTTP_noWrite cfg req3 st pth h2
        · rename_i res st2 heq3
          rw [afterHandle_state] at h
          have h1 : FSOp.writeFile pth ∈ st2.fsOps := h
          rw [handleResponse_fsOps_eq _ _ _ _ _ _ heq3] at h1
          have h2 : FSOp.writeFile pth
              ∈ (makeHTTPRequest cfg req3 st).2.2.fsOps := by
            rw [heq2]; exact h1
          exact makeHTTP_noWrite cfg req3 st pth h2
        · rename_i newReq res1 st2 heq3
          split at h
          · rename_i e st3 snd3 heq4
            have h1 : FSOp.writeFile pth ∈ st3.fsOps := h
            have h2 := ih newReq st2 pth (by rw [heq4]; exact h1)
            rw [handleResponse_fsOps_eq _ _ _ _ _ _ heq3] at h2
            have h3 : FSOp.writeFile pth
                ∈ (makeHTTPRequest cfg req3 st).2.2.fsOps := by
              rw [heq2]; exact h2
            exact makeHTTP_noWrite cfg req3 st pth h3
          · rename_i inner st3 snd3 heq4
            rw [afterHandle_state] at h
            have h1 : FSOp.writeFile pth ∈ st3.fsOps := h
            have h2 := ih newReq st2 pth (by rw [heq4]; exact h1)
            rw [handleResponse_fsOps_eq _ _ _ _ _ _ heq3] at h2
            have h3 : FSOp.writeFile pth
                ∈ (makeHTTPRequest cfg req3 st).2.2.fsOps := by
              rw [heq2]; exact h2
            exact makeHTTP_noWrite cfg req3 st pth h3

/-- C8: for a `file:` URL reaching transport dispatch, a non-GET method
yields a 405 response (405-equivalent: its status text is `Method Not
Allowed`); a GET for a missing path yields a 404 response; a GET for an
existing path yields the file's bytes as the body, a read error
propagating as the fetch's error; and the transport performs no
filesystem write — the trace of any pipeline run (hence of any fetch)
contains only the existence checks and reads it started with. -/
theorem claim_C8 (cfg : PCfg) (req : Req) (st : PState) (buf : JSBytes)
    (msg : String) (browser : Browser) (fuel : Nat) (req2 : Req)
    (st2 : PState) (pth : String)
    (hp : (parseURL req.url).protocol = some "file:") :
    (req.method ≠ "GET" →
      makeHTTPRequest cfg req st = (.ok { statusCode := some 405 }, req, st))
    ∧ (req.method = "GET" →
       cfg.fsExists (cfg.pathNormalize
         (cfg.decodeURI (((parseURL req.url).pathname).getD ""))) = false →
      makeHTTPRequest cfg req st = (.ok { statusCode := some 404 }, req,
        { st with fsOps := st.fsOps ++ [.existsCheck (cfg.pathNormalize
            (cfg.decodeURI (((parseURL req.url).pathname).getD "")))] }))
    ∧ (req.method = "GET" →
       cfg.fsExists (cfg.pathNormalize
         (cfg.decodeURI (((parseURL req.url).pathname).getD ""))) = true →
       cfg.fsRead (cfg.pathNormalize
         (cfg.decodeURI (((parseURL req.url).pathname).getD ""))) = .ok buf →
      (makeHTTPRequest cfg req st).1 = .ok { body := some (.bytes buf) })
    ∧ (req.method = "GET" →
       cfg.fsExists (cfg.pathNormalize
         (cfg.decodeURI (((parseURL req.url).pathname).getD ""))) = true →
       cfg.fsRead (cfg.pathNormalize
         (cfg.decodeURI (((parseURL req.url).pathname).getD "")))
         = .error msg →
      (makeHTTPRequest cfg req st).1 = .error (.fsError msg))
    ∧ (statusCodes 405 = some "Method Not Allowed"
       ∧ statusCodes 404 = some "Not Found")
    ∧ (FSOp.writeFile pth ∈ (runPipeline cfg browser fuel req2 st2).2.1.fsOps
        → FSOp.writeFile pth ∈ st2.fsOps) := by
  refine ⟨?_, ?_, ?_, ?_, ⟨rfl, rfl⟩, ?_⟩
  · intro hm
    simp only [makeHTTPRequest, makeFileRequest]
    rw [if_pos hp, if_pos hm]
  · intro hm hex
    simp only [makeHTTPRequest, makeFileRequest]
    rw [if_pos hp, if_neg (show ¬req.method ≠ "GET" from fun hx => hx hm),
      if_neg (by simp [hex])]
  · intro hm hex hread
    simp only [makeHTTPRequest, makeFileRequest]
    rw [if_pos hp, if_neg (show ¬req.method ≠ "GET" from fun hx => hx hm),
      if_pos hex, hread]
  · intro hm hex hread
    simp only [makeHTTPRequest, makeFileRequest]
    rw [if_pos hp, if_neg (show ¬req.method ≠ "GET" from fun hx => hx hm),
      if_pos hex, hread]
  · exact runPipeline_noWrite cfg browser fuel req2 st2 pth

/-- A filesystem with one file. -/
def c8Cfg : PCfg :=
  { cfg0 with
    fsExists := fun p => p == "/tmp/hello.txt"
    fsRead := fun p =>
      if p == "/tmp/hello.txt" then .ok (strBytes "hello") else .error "ENOENT" }

theorem claim_C8_witness :
    (makeHTTPRequest c8Cfg
      { method := "POST", url := "file:///tmp/hello.txt", headers := [] }
      {}).1 = Except.ok { statusCode := some 405 }
    ∧ (makeHTTPRequest c8Cfg
        { method := "GET", url := "file:///tmp/missing.txt", headers := [] }
        {}).1 = Except.ok { statusCode := some 404 }
    ∧ (makeHTTPRequest c8Cfg
        { method := "GET", url := "file:///tmp/hello.txt", headers := [] }
        {}).1 = Except.ok { body := some (.bytes (strBytes "hello")) } := by
  refine ⟨?_, ?_, ?_⟩
  · have h := (claim_C8 c8Cfg
      { method := "POST", url := "file:///tmp/hello.txt", headers := [] }
      {} [] "" c2Browser 0 c1Req {} "" (by decide)).1 (by decide)
    rw [h]
  · have h := ((claim_C8 c8Cfg
      { method := "GET", url := "file:///tmp/missing.txt", headers := [] }
      {} [] "" c2Browser 0 c1Req {} "" (by decide)).2.1 rfl (by decide))
    rw [h]
  · exact ((claim_C8 c8Cfg
      { method := "GET", url := "file:///tmp/hello.txt", headers := [] }
      {} (strBytes "hello") "" c2Browser 0 c1Req {} "" (by decide)).2.2.1
      rfl (by decide) (by rfl))

/-! ## Async-request engine (XMLHttpRequest)

Embeds `src/src/xhr.js`.  Lifecycle states are the numeric constants
UNSENT 0, OPENED 1, HEADERS_RECEIVED 2, LOADING 3, DONE 4.  Event
dispatch (`_fire`, also `_stateChanged`'s `readystatechange`) becomes an
ordered event list; `document.raise` and `browser.errors.push` are
separate output channels.  The request headers here are the plain
JavaScript object the engine builds (keyed access, not the fetch header
collection). -/

/-- jsdom's `NOT_SUPPORTED_ERR` DOM error code. -/
def NOT_SUPPORTED_ERR : Nat := 9

/-- jsdom's `INVALID_STATE_ERR` DOM error code. -/
def INVALID_STATE_ERR : Nat := 11

/-- jsdom's `SYNTAX_ERR` DOM error code. -/
def SYNTAX_ERR : Nat := 12

/-- `DOM.SECURITY_ERR` as defined in `dom.coffee`. -/
def SECURITY_ERR : Nat := 18

/-- `DOM.NETWORK_ERR` as defined in `dom.coffee`. -/
def NETWORK_ERR : Nat := 19

/-- `DOM.ABORT_ERR` as defined in `dom.coffee`. -/
def ABORT_ERR : Nat := 20

/-- `DOM.TIMEOUT_ERR` as defined in `dom.coffee`. -/
def TIMEOUT_ERR : Nat := 23

/-- A `DOMException` value: code plus message. -/
structure DomErr where
  code : Nat
  message : String
deriving DecidableEq, Repr

/-- Events fired on the XHR object (readystatechange carries the state
just entered). -/
inductive XEvent
  | readystatechange (state : Nat)
  | loadstartEv
  | progressEv
  | abortEv
  | errorEv
  | timeoutEv
  | loadEv
  | loadendEv
deriving DecidableEq, Repr

/-- The engine's `_pending` request object. -/
structure PendingReq where
  method : String
  url : String
  headers : List (String × String)
  body : Option String := none
  timeout : Nat := 0
  sent : Bool := false
  aborted : Bool := false
deriving DecidableEq, Repr

/-- The completed response as the engine reads it (`statusCode`,
`statusText`, a plain headers object, the body text). -/
structure XhrRes where
  statusCode : Nat
  statusText : String := ""
  headers : List (String × String) := []
  body : String := ""
deriving DecidableEq, Repr

/-- A network-level error delivered to the completion callback; `code`
is node's error code (`ETIMEDOUT` marks a timeout). -/
structure HErr where
  code : Option String := none
  message : String := ""
deriving DecidableEq, Repr

/-- The engine's per-instance state. -/
structure XHR where
  readyState : Nat := 0
  pending : Option PendingReq := none
  cors : Option String := none
  response : Option XhrRes := none
  errorX : Option DomErr := none
  timeout : Nat := 0
deriving DecidableEq, Repr

/-- The owning window's location, as the engine reads it. -/
structure Loc where
  href : String
  protocol : String
  host : String
  hostname : String
deriving DecidableEq, Repr

/-- Property read on a plain headers object. -/
def objLookup (l : List (String × String)) (k : String) : Option String :=
  (l.find? (fun p => p.1 == k)).map Prod.snd

/-- Property write on a plain object: first assignment fixes the
position, a later one overwrites the value. -/
def objUpsert (l : List (String × String)) (k v : String) :
    List (String × String) :=
  if l.any (fun p => p.1 == k) then
    l.map (fun p => if p.1 == k then (p.1, v) else p)
  else l ++ [(k, v)]

/-- `XMLHttpRequest.abort` (lines 28-38): before send (UNSENT, or OPENED
with an unsent pending request) the state resets to UNSENT and nothing
fires; otherwise the pending request is flagged aborted.  Accessing the
pending request when there is none is the JavaScript null dereference. -/
def xhrAbort (x : XHR) : Except JSErr XHR :=
  if x.readyState = 0 then .ok { x with readyState := 0 }
  else
    match x.pending with
    | none => .error (.typeError "Cannot set property of null")
    | some r =>
      if x.readyState = 1 ∧ r.sent = false then .ok { x with readyState := 0 }
      else .ok { x with pending := some { r with aborted := true } }

/-- The URL pieces `open` computes: resolve against the location, strip a
default port (443/https, 80/http), fall back to the location's hostname,
and form the host. -/
structure OpenURL where
  protocol : Option String
  hostname : String
  host : String
  pathname : String
  search : String
deriving DecidableEq, Repr

/-- URL resolution of `XMLHttpRequest.open` (lines 62-76). -/
def xhrResolveURL (loc : Loc) (url : String) : OpenURL :=
  let u := parseURL (resolveHref loc.href url)
  let port1 := if (u.protocol = some "https:" ∧ u.port = some "443")
      ∨ (u.protocol = some "http:" ∧ u.port = some "80") then none
    else u.port
  let hostname := match u.hostname with
    | some h => if h = "" then loc.hostname else h
    | none => loc.hostname
  let host := match port1 with
    | some p => hostname ++ ":" ++ p
    | none => hostname
  { protocol := u.protocol, hostname := hostname, host := host
    pathname := (u.pathname).getD "", search := (u.search).getD "" }

/-- `XMLHttpRequest.open` (lines 45-89): synchronous mode unsupported;
any active request is aborted first; CONNECT/TRACE/TRACK are a security
violation, anything outside the allowed six methods malformed; only
HTTP/S URLs; a host differing from the document's records the Origin
header and the cross-origin flag (the flag is only ever *set* here — a
same-origin open leaves a previous flag in place); response/error reset;
the state change to OPENED fires `readystatechange`. -/
def xhrOpen (loc : Loc) (x : XHR) (method url : String) (useAsync : Bool)
    (user password : Option String) : Except JSErr (XHR × List XEvent) :=
  if useAsync = false then
    .error (.domError NOT_SUPPORTED_ERR
      "Zombie does not support synchronous XHR requests")
  else
    match xhrAbort x with
    | .error e => .error e
    | .ok x1 =>
      let method1 := jsToUpper method
      if method1 = "CONNECT" ∨ method1 = "TRACE" ∨ method1 = "TRACK" then
        .error (.domError SECURITY_ERR "Unsupported HTTP method")
      else if ¬(method1 = "DELETE" ∨ method1 = "GET" ∨ method1 = "HEAD"
          ∨ method1 = "OPTIONS" ∨ method1 = "POST" ∨ method1 = "PUT") then
        .error (.domError SYNTAX_ERR "Unsupported HTTP method")
      else
        let ou := xhrResolveURL loc url
        if ¬(ou.protocol = some "http:" ∨ ou.protocol = some "https:") then
          .error (.domError NOT_SUPPORTED_ERR "Only HTTP/S protocol supported")
        else
          let originHdr := loc.protocol ++ "//" ++ loc.host
          let headers : List (String × String) :=
            if ou.host ≠ loc.host then [("origin", originHdr)] else []
          let cors1 := if ou.host ≠ loc.host then some originHdr else x1.cors
          let authPre := match user with
            | some u => u ++ ":" ++ (password.getD "") ++ "@"
            | none => ""
          let fmt := (ou.protocol.getD "") ++ "//" ++ authPre ++ ou.host
            ++ ou.pathname ++ ou.search
          .ok ({ x1 with
                  pending := some { method := method1, url := fmt
                                    headers := headers }
                  cors := cors1
                  response := none, errorX := none, readyState := 1 },
               [XEvent.readystatechange 1])

/-- `XMLHttpRequest.setRequestHeader` (lines 94-99): OPENED only; the
lowercased name keys a plain-object write. -/
def setRequestHeader (x : XHR) (hdr v : String) : Except JSErr XHR :=
  if x.readyState ≠ 1 then .error (.domError INVALID_STATE_ERR "Invalid state")
  else
    match x.pending with
    | none => .error (.typeError "Cannot read property of null")
    | some r =>
      .ok { x with pending := some { r with
        headers := objUpsert r.headers (jsToLower hdr) v } }

/-- The dispatch part of `XMLHttpRequest.send` (lines 105-117, 174):
OPENED only; fires `loadstart`; defaults the content type; attaches
body/timeout and marks the request sent.  The returned `PendingReq` is
what the completion callback later closes over. -/
def xhrSend (x : XHR) (data : Option String) :
    Except JSErr (XHR × List XEvent × PendingReq) :=
  if x.readyState ≠ 1 then .error (.domError INVALID_STATE_ERR "Invalid state")
  else
    match x.pending with
    | none => .error (.typeError "Cannot read property of null")
    | some r =>
      let ct := match objLookup r.headers "content-type" with
        | some c => c
        | none => "text/plain"
      let r1 := { r with
        headers := objUpsert r.headers "content-type" ct
        body := data, timeout := x.timeout, sent := true }
      .ok ({ x with pending := some r1 }, [XEvent.loadstartEv], r1)

/-- Everything the completion callback produces: the new engine state,
the events fired on the XHR object in order, the messages raised to the
document's error channel, and the errors pushed onto `browser.errors`. -/
structure XhrOutcome where
  x : XHR
  events : List XEvent
  raised : List String
  pushedErrors : List DomErr
deriving Repr

/-- The success tail of the completion callback (lines 161-172): store
the response, walk HEADERS_RECEIVED → LOADING → DONE, then fire
progress, load, loadend. -/
def successOutcome (x0 : XHR) (response : XhrRes) : XhrOutcome :=
  { x := { x0 with response := some response, readyState := 4 }
    events := [.readystatechange 2, .readystatechange 3, .readystatechange 4,
      .progressEv, .loadEv, .loadendEv]
    raised := [], pushedErrors := [] }

/-- The completion callback of `XMLHttpRequest.send` (lines 118-173):
clear the pending slot when it still holds this request; an aborted
request becomes the abort outcome (DONE, progress, abort — and no
loadend); a network error becomes timeout or error (DONE, progress,
timeout/error, loadend, pushed to `browser.errors`); a cross-origin
response must carry `Access-Control-Allow-Origin` `*` or exactly the
caller's origin, else the outcome is a security error (DONE, progress,
error, loadend, pushed, and raised to the document); otherwise the
success transitions run. -/
def xhrOnComplete (x : XHR) (request : PendingReq)
    (result : Except HErr XhrRes) : XhrOutcome :=
  let x0 := if x.pending = some request then { x with pending := none } else x
  if request.aborted then
    let err : DomErr := { code := ABORT_ERR, message := "Request aborted" }
    { x := { x0 with readyState := 4, errorX := some err }
      events := [.readystatechange 4, .progressEv, .abortEv]
      raised := [], pushedErrors := [] }
  else
    match result with
    | .error e =>
      if e.code = some "ETIMEDOUT" then
        let err : DomErr := { code := TIMEOUT_ERR
                              message := "The request timed out" }
        { x := { x0 with readyState := 4, errorX := some err }
          events := [.readystatechange 4, .progressEv, .timeoutEv, .loadendEv]
          raised := [], pushedErrors := [err] }
      else
        let err : DomErr := { code := NETWORK_ERR, message := e.message }
        { x := { x0 with readyState := 4, errorX := some err }
          events := [.readystatechange 4, .progressEv, .errorEv, .loadendEv]
          raised := [], pushedErrors := [err] }
    | .ok response =>
      match x0.cors with
      | some origin =>
        let allowedOrigin := objLookup response.headers
          "access-control-allow-origin"
        if ¬(allowedOrigin = some "*" ∨ allowedOrigin = some origin) then
          let err : DomErr := { code := SECURITY_ERR
                                message := "Cannot make request to different domain" }
          { x := { x0 with readyState := 4, errorX := some err }
            events := [.readystatechange 4, .progressEv, .errorEv, .loadendEv]
            raised := [err.message], pushedErrors := [err] }
        else successOutcome x0 response
      | none => successOutcome x0 response

/-- `status` getter: the response's status, 0 after an error, null
before either. -/
def xhrStatus (x : XHR) : Option Nat :=
  match x.response with
  | some r => some r.statusCode
  | none =>
    match x.errorX with
    | some _ => some 0
    | none => none

/-- `responseText` getter: requires a response and state ≥ LOADING. -/
def xhrResponseText (x : XHR) : Option String :=
  match x.response with
  | some r => if 3 ≤ x.readyState then some r.body else none
  | none => none

theorem pendingClear_cors (x : XHR) (request : PendingReq) :
    (if x.pending = some request then { x with pending := none } else x).cors
      = x.cors := by
  split <;> rfl

theorem pendingClear_response (x : XHR) (request : PendingReq) :
    (if x.pending = some request
      then { x with pending := none } else x).response = x.response := by
  split <;> rfl

theorem xhrOnComplete_corsReject (x : XHR) (request : PendingReq)
    (res : XhrRes) (origin : String)
    (hc : x.cors = some origin) (hna : request.aborted = false)
    (hno : ¬(objLookup res.headers "access-control-allow-origin" = some "*"
      ∨ objLookup res.headers "access-control-allow-origin" = some origin)) :
    xhrOnComplete x request (.ok res)
      = { x := { (if x.pending = some request
                   then { x with pending := none } else x) with
                 readyState := 4
                 errorX := some (DomErr.mk SECURITY_ERR
                   "Cannot make request to different domain") }
          events := [.readystatechange 4, .progressEv, .errorEv, .loadendEv]
          raised := ["Cannot make request to different domain"]
          pushedErrors := [DomErr.mk SECURITY_ERR
            "Cannot make request to different domain"] } := by
  simp only [xhrOnComplete, hna, Bool.false_eq_true, if_false]
  rw [pendingClear_cors, hc]
  simp only [if_pos hno]

theorem xhrOnComplete_success (x : XHR) (request : PendingReq)
    (res : XhrRes) (origin : String)
    (hc : x.cors = some origin) (hna : request.aborted = false)
    (hyes : objLookup res.headers "access-control-allow-origin" = some "*"
      ∨ objLookup res.headers "access-control-allow-origin" = some origin) :
    xhrOnComplete x request (.ok res)
      = successOutcome (if x.pending = some request
          then { x with pending := none } else x) res := by
  simp only [xhrOnComplete, hna, Bool.false_eq_true, if_false]
  rw [pendingClear_cors, hc]
  simp only [if_neg (not_not_intro hyes)]

/-- C7: on completion of a request flagged cross-origin at open time (and
not aborted), the outcome is success only when the response carries an
`Access-Control-Allow-Origin` of `*` or exactly the caller's origin; a
response lacking such a header is forced to the security-error outcome —
no load event, no stored response, the error recorded and pushed, and the
message raised to the document's error channel — and `open` records the
cross-origin flag whenever the resolved host differs from the
document's. -/
theorem claim_C7 (loc : Loc) (x0 : XHR) (method url : String) (x : XHR)
    (request : PendingReq) (res : XhrRes) (origin : String)
    (hc : x.cors = some origin) (hna : request.aborted = false)
    (hresp : x.response = none) :
    (XEvent.loadEv ∈ (xhrOnComplete x request (.ok res)).events
      → (objLookup res.headers "access-control-allow-origin" = some "*"
         ∨ objLookup res.headers "access-control-allow-origin" = some origin))
    ∧ (¬(objLookup res.headers "access-control-allow-origin" = some "*"
         ∨ objLookup res.headers "access-control-allow-origin" = some origin)
      → (xhrOnComplete x request (.ok res)).x.errorX
            = some (DomErr.mk SECURITY_ERR
                "Cannot make request to different domain")
        ∧ (xhrOnComplete x request (.ok res)).x.response = none
        ∧ (xhrOnComplete x request (.ok res)).events
            = [.readystatechange 4, .progressEv, .errorEv, .loadendEv]
        ∧ XEvent.loadEv ∉ (xhrOnComplete x request (.ok res)).events
        ∧ (xhrOnComplete x request (.ok res)).raised
            = ["Cannot make request to different domain"]
        ∧ (xhrOnComplete x request (.ok res)).pushedErrors
            = [DomErr.mk SECURITY_ERR
                "Cannot make request to different domain"])
    ∧ (∀ x1 evs, xhrOpen loc x0 method url true none none = .ok (x1, evs)
      → (xhrResolveURL loc url).host ≠ loc.host
      → x1.cors = some (loc.protocol ++ "//" ++ loc.host)) := by
  refine ⟨?_, ?_, ?_⟩
  · intro hload
    by_cases hyes : objLookup res.headers "access-control-allow-origin"
        = some "*"
      ∨ objLookup res.headers "access-control-allow-origin" = some origin
    · exact hyes
    · rw [xhrOnComplete_corsReject x request res origin hc hna hyes] at hload
      simp at hload
  · intro hno
    rw [xhrOnComplete_corsReject x request res origin hc hna hno]
    refine ⟨rfl, ?_, rfl, by simp, rfl, rfl⟩
    show (if x.pending = some request
      then { x with pending := none } else x).response = none
    rw [pendingClear_response]
    exact hresp
  · intro x1 evs heq hhost
    simp only [xhrOpen,
      if_neg (show ¬(true = false) from by decide)] at heq
    split at heq
    · exact Except.noConfusion heq
    · rename_i x2 habort
      split at heq
      · exact Except.noConfusion heq
      · split at heq
        · exact Except.noConfusion heq
        · split at heq
          · exact Except.noConfusion heq
          · injection heq with h2
            injection h2 with h3 h4
            rw [← h3]

/-- The caller's location for the cross-origin scenario. -/
def c7Loc : Loc :=
  { href := "http://home.test/", protocol := "http:", host := "home.test"
    hostname := "home.test" }

/-- A sent cross-origin request. -/
def c7Req : PendingReq :=
  { method := "GET", url := "http://other.test/x"
    headers := [("origin", "http://home.test")], sent := true }

/-- The engine state after open+send of the cross-origin request. -/
def c7X : XHR :=
  { readyState := 1, pending := some c7Req, cors := some "http://home.test" }

/-- A response with no `Access-Control-Allow-Origin` header. -/
def c7Res : XhrRes := { statusCode := 200 }

theorem claim_C7_witness :
    (xhrOnComplete c7X c7Req (.ok c7Res)).x.errorX
      = some (DomErr.mk SECURITY_ERR "Cannot make request to different domain")
    ∧ XEvent.loadEv ∉ (xhrOnComplete c7X c7Req (.ok c7Res)).events
    ∧ (xhrOnComplete c7X c7Req (.ok c7Res)).raised
        = ["Cannot make request to different domain"] :=
  let h := claim_C7 c7Loc {} "GET" "http://other.test/x" c7X c7Req c7Res
    "http://home.test" rfl rfl rfl
  ⟨(h.2.1 (by decide)).1, (h.2.1 (by decide)).2.2.2.1,
    (h.2.1 (by decide)).2.2.2.2.1⟩

/-- C9 (amended): the timeout, network-error, CORS-rejection and success
paths each fire their events with the DONE `readystatechange` first, the
path's outcome event after `progress`, and `loadend` last; the abort-of-a-
sent-request path, however, fires only DONE, progress, abort — no
`loadend` (this is where the original claim fails); and a pre-send abort
resets the state to UNSENT and fires no events at all (`xhrAbort`
produces no events on any path). -/
theorem claim_C9 (x : XHR) (request : PendingReq) (e : HErr) (res : XhrRes)
    (origin : String) (r1 : PendingReq) :
    (request.aborted = true →
      ∀ result : Except HErr XhrRes,
        (xhrOnComplete x request result).events
          = [.readystatechange 4, .progressEv, .abortEv])
    ∧ (request.aborted = false → e.code = some "ETIMEDOUT" →
        (xhrOnComplete x request (.error e)).events
          = [.readystatechange 4, .progressEv, .timeoutEv, .loadendEv])
    ∧ (request.aborted = false → e.code ≠ some "ETIMEDOUT" →
        (xhrOnComplete x request (.error e)).events
          = [.readystatechange 4, .progressEv, .errorEv, .loadendEv])
    ∧ (request.aborted = false → x.cors = some origin →
       ¬(objLookup res.headers "access-control-allow-origin" = some "*"
         ∨ objLookup res.headers "access-control-allow-origin" = some origin) →
        (xhrOnComplete x request (.ok res)).events
          = [.readystatechange 4, .progressEv, .errorEv, .loadendEv])
    ∧ (request.aborted = false → x.cors = none →
        (xhrOnComplete x request (.ok res)).events
          = [.readystatechange 2, .readystatechange 3, .readystatechange 4,
             .progressEv, .loadEv, .loadendEv])
    ∧ (x.readyState = 0 → xhrAbort x = .ok { x with readyState := 0 })
    ∧ (x.readyState = 1 → x.pending = some r1 → r1.sent = false →
        xhrAbort x = .ok { x with readyState := 0 }) := by
  refine ⟨?_, ?_, ?_, ?_, ?_, ?_, ?_⟩
  · intro ha result
    simp only [xhrOnComplete, ha, if_true]
  · intro hna ht
    simp only [xhrOnComplete, hna, Bool.false_eq_true, if_false, ht, if_pos]
  · intro hna ht
    simp only [xhrOnComplete, hna, Bool.false_eq_true, if_false, if_neg ht]
  · intro hna hc hno
    rw [xhrOnComplete_corsReject x request res origin hc hna hno]
  · intro hna hc
    simp only [xhrOnComplete, hna, Bool.false_eq_true, if_false]
    rw [pendingClear_cors, hc]
    rfl
  · intro h0
    simp only [xhrAbort, h0, if_pos]
  · intro h1 hp hs
    have hn0 : x.readyState ≠ 0 := by rw [h1]; decide
    simp only [xhrAbort, if_neg hn0, hp]
    rw [if_pos ⟨h1, hs⟩]

/-- A sent-and-aborted request. -/
def c9Req : PendingReq :=
  { method := "GET", url := "http://example.test/x", headers := []
    sent := true, aborted := true }

/-- The engine state awaiting that request's completion. -/
def c9X : XHR := { readyState := 1, pending := some c9Req }

/-- The events the abort path fires. -/
def c9Events : List XEvent :=
  (xhrOnComplete c9X c9Req (.ok { statusCode := 200 })).events

/-- C9 (counterexample): the claim says every terminal path except the
pre-send abort fires `loadend` last, but the abort-of-a-sent-request path
fires DONE, progress, abort and stops — no `loadend` at all. -/
theorem claim_C9_counterexample :
    c9Events = [.readystatechange 4, .progressEv, .abortEv]
    ∧ c9Events.getLast? ≠ some XEvent.loadendEv
    ∧ XEvent.loadendEv ∉ c9Events := by decide

theorem claim_C9_witness :
    (xhrOnComplete c9X { c9Req with aborted := false }
        (.error { code := some "ETIMEDOUT" })).events
      = [.readystatechange 4, .progressEv, .timeoutEv, .loadendEv]
    ∧ xhrAbort { readyState := 0 } = .ok { readyState := 0 } := by
  have h := claim_C9 c9X { c9Req with aborted := false }
    { code := some "ETIMEDOUT" } { statusCode := 200 } "" c9Req
  have h2 := claim_C9 ({ readyState := 0 } : XHR) c9Req
    { code := some "ETIMEDOUT" } { statusCode := 200 } "" c9Req
  exact ⟨h.2.1 rfl rfl, h2.2.2.2.2.2.1 rfl⟩
